import Mathlib

/-!
# A shallow embedding of `a5.c` (multithreaded HTTP server)

The C translation unit `a5.c` is embedded as follows.

* A byte is a natural number; a `char` array is the list of its bytes.  A string
  constant is represented by its characters, without the terminating NUL, so
  that `strlen` of a constant is the length of the list.
* An `int` is an integer of `Int` kept in the range of a 32-bit `int`: a sum or a
  conversion that leaves the range wraps around (`wrap_int`), which is what the
  compiled code does where C leaves the overflow undefined.
* The C library functions the file calls (`strlen`, `strncmp`, `strstr`,
  `strtok_r`, `sscanf`, `snprintf`, `memcpy`) are modelled after the C standard
  on byte lists; a read or write outside an array is undefined behaviour.
* The globals of the file (`written`, `written_size`, the five counters, the two
  locks) form the record `Server`, together with the bytes sent on the client
  socket; a handler is a function on that record which either returns or stops
  (failed `assert`, undefined behaviour, blocked for ever on a lock).
* The connection queue (`clients`, `front`, `rear`, `n_threads`, `slots`,
  `items`) forms the record `Queue`, with the body of `accept_client` after
  `accept` and one iteration of `consumer` before the handler as steps.
-/

namespace A5

/-! ## Bytes and string constants -/

/-- The bytes of a string constant (without the terminating NUL). -/
def bytes (s : String) : List Nat := s.toList.map Char.toNat

def ping_request : List Nat := bytes "GET /ping HTTP/1.1\r\n\r\n"
def echo_request : List Nat := bytes "GET /echo HTTP/1.1\r\n"
def write_request : List Nat := bytes "POST /write HTTP/1.1\r\n"
def read_request : List Nat := bytes "GET /read HTTP/1.1\r\n"
def file_request : List Nat := bytes "GET /%s HTTP/1.1\r\n"
def stats_request : List Nat := bytes "GET /stats HTTP/1.1\r\n"

def stats_response_body : List Nat :=
  bytes "Requests: %d\nHeader bytes: %d\nBody bytes: %d\nErrors: %d\nError bytes: %d"

def ok200_response : List Nat := bytes "HTTP/1.1 200 OK\r\nContent-Length: %d\r\n\r\n"
def err404_response : List Nat := bytes "HTTP/1.1 404 Not Found"
def err400_response : List Nat := bytes "HTTP/1.1 400 Bad Request"

def content_len_header : List Nat := bytes "Content-Length: %d"

def ping_header : List Nat := bytes "HTTP/1.1 200 OK\r\nContent-Length: 4\r\n\r\n"
def ping_body : List Nat := bytes "pong"

/-- The string `"\r\n\r\n"` that `handle_echo` and `handle_write` search for. -/
def crlfcrlf : List Nat := bytes "\r\n\r\n"

/-- The string `"\r\n"`: the needle of `handle_echo`, the delimiter set of `handle_write`. -/
def crlf : List Nat := bytes "\r\n"

/-! ## Machine integers -/

/-- The value an `int` takes when the integer `x` is stored in it: `x` itself when
it fits 32 bits, else `x` wrapped around (two's complement). -/
def wrap_int (x : Int) : Int := (x + 2147483648) % 4294967296 - 2147483648

/-- The integers that an `int` holds, from `INT_MIN` to `INT_MAX`. -/
def fits_int (x : Int) : Prop := -2147483648 ≤ x ∧ x ≤ 2147483647

instance (x : Int) : Decidable (fits_int x) := by
  unfold fits_int
  exact inferInstance

/-- The value `%d` of `sscanf` stores through an `int*` for the number read: the
number is converted as by `strtol`, which stops at the ends of the range of a
64-bit `long`, and the result is stored in the `int`. -/
def store_int (x : Int) : Int :=
  wrap_int (max (-9223372036854775808) (min x 9223372036854775807))

/-! ## The C library on byte lists -/

/-- C `strlen` on the bytes starting at a pointer: the number of bytes before the
first NUL; `none` when the array ends before a NUL is met. -/
def strlen : List Nat → Option Nat
  | [] => none
  | c :: cs => if c = 0 then some 0 else (strlen cs).map (· + 1)

/-- The C string starting at a pointer: the bytes before the first NUL; `none`
when the array ends before a NUL is met. -/
def cstr : List Nat → Option (List Nat)
  | [] => none
  | c :: cs => if c = 0 then some [] else (cstr cs).map (c :: ·)

/-- C `strncmp(s, lit, n)` against a string constant `lit`: the difference of the
first bytes that differ among the first `n`, `0` when there are none; the end of
`lit` is its terminating NUL.  `none` when `s` is read past its end. -/
def strncmp : List Nat → List Nat → Nat → Option Int
  | _, _, 0 => some 0
  | [], _, _ + 1 => none
  | a :: _, [], _ + 1 => some (a : Int)
  | a :: as, b :: bs, n + 1 =>
    if a ≠ b then some ((a : Int) - (b : Int))
    else if a = 0 then some 0
    else strncmp as bs n

/-- C `strstr(s, needle)` for a constant `needle` without NUL: `some (some i)` when
the first occurrence of `needle` in the C string at `s` is at offset `i`,
`some none` (NULL) when a NUL is met first, `none` when `s` is read past its end. -/
def strstr (needle : List Nat) : List Nat → Option (Option Nat)
  | [] => none
  | c :: cs =>
    if needle.isPrefixOf (c :: cs) then some (some 0)
    else if c = 0 then some none
    else (strstr needle cs).map (Option.map (· + 1))

/-- C `strspn(s, delim)`: the length of the initial run of bytes of `delim`. -/
def strspn (delim : List Nat) : List Nat → Nat
  | [] => 0
  | c :: cs => if c ∈ delim then strspn delim cs + 1 else 0

/-- C `strcspn(s, delim)`: the length of the initial run of bytes that are neither
NUL nor in `delim`. -/
def strcspn (delim : List Nat) : List Nat → Nat
  | [] => 0
  | c :: cs => if c = 0 ∨ c ∈ delim then 0 else strcspn delim cs + 1

/-- C `strtok_r(s, delim, &saveptr)` on the array `mem`, with `s` the position the
scan starts from (the string on the first call, `saveptr` on the later ones).
Returns the array (a NUL written over the delimiter that ends the token), the
token (its position, or `none` for NULL) and the new `saveptr`; `none` when the
array is read past its end. -/
def strtok_r (mem : List Nat) (s : Nat) (delim : List Nat) :
    Option (List Nat × Option Nat × Nat) :=
  let s1 := s + strspn delim (mem.drop s)
  match mem[s1]? with
  | none => none
  | some c =>
    if c = 0 then some (mem, none, s1)
    else
      let e := s1 + strcspn delim (mem.drop s1)
      match mem[e]? with
      | none => none
      | some d =>
        if d = 0 then some (mem, some s1, e)
        else some (mem.set e 0, some s1, e + 1)

/-- C `isspace` in the C locale. -/
def isspace (c : Nat) : Bool := c = 32 || (9 ≤ c && c ≤ 13)

/-- C `isdigit`. -/
def isdigit (c : Nat) : Bool := 48 ≤ c && c ≤ 57

/-- The directives of a `scanf` format: an ordinary character, white space, `%d`, `%s`. -/
inductive Directive where
  | lit (c : Nat)
  | white
  | int
  | str
  deriving DecidableEq, Repr

/-- The directives of a format string (of the conversions only `%d` and `%s` occur
in `a5.c`). -/
def parse_format : List Nat → List Directive
  | [] => []
  | [c] => [if isspace c then Directive.white else Directive.lit c]
  | c :: d :: rest =>
    if c = 37 ∧ d = 100 then Directive.int :: parse_format rest
    else if c = 37 ∧ d = 115 then Directive.str :: parse_format rest
    else (if isspace c then Directive.white else Directive.lit c) :: parse_format (d :: rest)

/-- The result of `sscanf`: the value returned and the values stored through the
`%d` and `%s` arguments, in order. -/
structure Scanned where
  ret : Int
  ints : List Int
  strs : List (List Nat)
  deriving DecidableEq, Repr

/-- The decimal digits at the head of the input, accumulated into a number, and
the input after them. -/
def scan_digits : List Nat → Nat → Nat × List Nat
  | [], acc => (acc, [])
  | c :: cs, acc =>
    if isdigit c then scan_digits cs (acc * 10 + (c - 48)) else (acc, c :: cs)

/-- The conversion `%d`: the input item is an optional sign and a non-empty run of
decimal digits, and the value is the `int` that is stored for it (`store_int`),
with the input after the item; `none` when the input does not start with such an
item (a matching failure). -/
def scan_int (inp : List Nat) : Option (Int × List Nat) :=
  match inp with
  | [] => none
  | c :: cs =>
    if c = 45 then
      match cs with
      | [] => none
      | d :: _ =>
        if isdigit d then some (store_int (-((scan_digits cs 0).1 : Int)), (scan_digits cs 0).2)
        else none
    else if c = 43 then
      match cs with
      | [] => none
      | d :: _ =>
        if isdigit d then some (store_int ((scan_digits cs 0).1 : Int), (scan_digits cs 0).2)
        else none
    else if isdigit c then some (store_int ((scan_digits inp 0).1 : Int), (scan_digits inp 0).2)
    else none

/-- The value `sscanf` returns when the input ends inside a directive (an input
failure): `EOF` when no conversion has been made, else the number of conversions. -/
def input_failure (n : Nat) (ints : List Int) (strs : List (List Nat)) : Scanned :=
  ⟨if n = 0 then -1 else (n : Int), ints, strs⟩

/-- The directives of `sscanf` run over an input string (C11 7.21.6.2): `n`
conversions have been made so far. -/
def sscanf_go : List Directive → List Nat → Nat → List Int → List (List Nat) → Scanned
  | [], _, n, ints, strs => ⟨(n : Int), ints, strs⟩
  | Directive.white :: ds, inp, n, ints, strs =>
    sscanf_go ds (inp.dropWhile isspace) n ints strs
  | Directive.lit c :: ds, inp, n, ints, strs =>
    match inp with
    | [] => input_failure n ints strs
    | x :: rest => if x = c then sscanf_go ds rest n ints strs else ⟨(n : Int), ints, strs⟩
  | Directive.int :: ds, inp, n, ints, strs =>
    match inp.dropWhile isspace with
    | [] => input_failure n ints strs
    | x :: rest =>
      match scan_int (x :: rest) with
      | none => ⟨(n : Int), ints, strs⟩
      | some (v, rest1) => sscanf_go ds rest1 (n + 1) (ints ++ [v]) strs
  | Directive.str :: ds, inp, n, ints, strs =>
    match inp.dropWhile isspace with
    | [] => input_failure n ints strs
    | x :: rest =>
      sscanf_go ds ((x :: rest).dropWhile (fun c => !isspace c)) (n + 1) ints
        (strs ++ [(x :: rest).takeWhile (fun c => !isspace c)])

/-- C `sscanf(s, format, ...)` on the C string at `s`; `none` when `s` is read past
its end. -/
def sscanf (s : List Nat) (format : List Nat) : Option Scanned :=
  (cstr s).map (fun inp => sscanf_go (parse_format format) inp 0 [] [])

/-- The decimal digits of a natural number, most significant first, put in front
of `acc`. -/
def dec_digits : Nat → Nat → List Nat → List Nat
  | 0, _, acc => acc
  | fuel + 1, n, acc =>
    if n < 10 then (48 + n) :: acc else dec_digits fuel (n / 10) ((48 + n % 10) :: acc)

/-- What `%d` prints for a natural number. -/
def dec_nat (n : Nat) : List Nat := dec_digits (n + 1) n []

/-- What `%d` prints for an integer. -/
def dec (x : Int) : List Nat :=
  if x < 0 then 45 :: dec_nat x.natAbs else dec_nat x.natAbs

/-- The output of a `printf` format (of the conversions only `%d` occurs in `a5.c`). -/
def format : List Nat → List Int → List Nat
  | [], _ => []
  | [c], _ => [c]
  | c :: d :: rest, args =>
    if c = 37 ∧ d = 100 then
      match args with
      | [] => format rest []
      | a :: as => dec a ++ format rest as
    else c :: format (d :: rest) args

/-- C `snprintf(buf, size, format, ...)`: the bytes stored in `buf` (at most
`size - 1` characters and a NUL) and the value returned, the length of the whole
output. -/
def snprintf (size : Nat) (fmt : List Nat) (args : List Int) : List Nat × Int :=
  ((format fmt args).take (size - 1) ++ [0], ((format fmt args).length : Int))

/-! ## The globals of `a5.c` and the execution of a handler -/

/-- The globals of `a5.c` that the handlers use, the bytes sent so far on the
client socket of the request being handled, and whether that socket is closed. -/
structure Server where
  written : List Nat
  written_size : Int
  write_lock : Bool
  reqs : Int
  head_bytes : Int
  body_bytes : Int
  errs : Int
  err_bytes : Int
  stats_lock : Bool
  sent : List Nat
  closed : Bool
  deriving DecidableEq, Repr

/-- The initial values of the globals: `written` holds `<empty>` (the rest of the
1024 bytes is zero), the counters are zero, the locks are free. -/
def Server.init : Server :=
  { written := bytes "<empty>" ++ List.replicate 1017 0
    written_size := 7
    write_lock := false
    reqs := 0
    head_bytes := 0
    body_bytes := 0
    errs := 0
    err_bytes := 0
    stats_lock := false
    sent := []
    closed := false }

/-- The five counters hold values of an `int`. -/
def Server.counters_fit (s : Server) : Prop :=
  fits_int s.reqs ∧ fits_int s.head_bytes ∧ fits_int s.body_bytes ∧ fits_int s.errs ∧
    fits_int s.err_bytes

/-- Why a handler does not return: a failed `assert` (the process is aborted),
undefined behaviour (an access outside an array), a wait for a lock that is
held (a handler that started with the lock free holds it itself, so the wait
never ends), or a loop that makes no progress. -/
inductive Stop where
  | abort
  | undefined
  | deadlock
  | spin
  deriving DecidableEq, Repr

/-- The outcome of running a piece of a handler: it completes with a value, or it
stops; both with the state of the globals at that point. -/
inductive Step (α : Type) where
  | ok (a : α) (s : Server)
  | stop (why : Stop) (s : Server)
  deriving DecidableEq, Repr

/-- A piece of a handler: a function from the state before to the outcome. -/
def Exec (α : Type) : Type := Server → Step α

def Exec.pure {α : Type} (a : α) : Exec α := fun s => Step.ok a s

def Exec.bind {α β : Type} (m : Exec α) (f : α → Exec β) : Exec β := fun s =>
  match m s with
  | Step.ok a s1 => f a s1
  | Step.stop why s1 => Step.stop why s1

instance : Monad Exec where
  pure := Exec.pure
  bind := Exec.bind

/-- Stop for the given reason. -/
def halt {α : Type} (why : Stop) : Exec α := fun s => Step.stop why s

/-- C `assert(c)`: the process is aborted when `c` is false. -/
def assert (c : Bool) : Exec Unit := fun s => if c then Step.ok () s else Step.stop Stop.abort s

/-- The result of a library call on an array; an access outside it is undefined. -/
def defined {α : Type} : Option α → Exec α
  | some a => Exec.pure a
  | none => halt Stop.undefined

def get_state : Exec Server := fun s => Step.ok s s

def modify_state (f : Server → Server) : Exec Unit := fun s => Step.ok () (f s)

/-- The two handler locks of `a5.c`. -/
inductive Mutex where
  | write_lock
  | stats_lock
  deriving DecidableEq, Repr

def Mutex.held (m : Mutex) (s : Server) : Bool :=
  match m with
  | Mutex.write_lock => s.write_lock
  | Mutex.stats_lock => s.stats_lock

def Mutex.set (m : Mutex) (b : Bool) (s : Server) : Server :=
  match m with
  | Mutex.write_lock => { s with write_lock := b }
  | Mutex.stats_lock => { s with stats_lock := b }

/-- `pthread_mutex_lock` on a default mutex (`pthread_mutex_init(&m, NULL)`): the
lock is taken when it is free; the caller waits when it is held. -/
def pthread_mutex_lock (m : Mutex) : Exec Unit := fun s =>
  if m.held s then Step.stop Stop.deadlock s else Step.ok () (m.set true s)

/-- `pthread_mutex_unlock`: the lock becomes free. -/
def pthread_mutex_unlock (m : Mutex) : Exec Unit := fun s => Step.ok () (m.set false s)

/-- Modelled from the spec: `send_fully`, declared in `a5.h` and not defined in
`a5.c`, a reliable "send all bytes or fail" primitive: the first `len` bytes of
`buf` are delivered to the client and `len` is returned.  Reading `len` bytes
must stay inside `buf`. -/
def send_fully (buf : List Nat) (len : Int) : Exec Int := fun s =>
  if 0 ≤ len ∧ len ≤ (buf.length : Int) then
    Step.ok len { s with sent := s.sent ++ buf.take len.toNat }
  else Step.stop Stop.undefined s

/-- `close(client)`. -/
def close_client : Exec Unit := modify_state (fun s => { s with closed := true })

/-! ## The handlers -/

/-- The loop `while (sent != size) sent += send_fully(client, buf+sent, size-sent, 0);`
of `send_request` and `handle_file`; `fuel` bounds the number of iterations. -/
def send_rest : Nat → List Nat → Int → Int → Exec Int
  | 0, _, _, _ => halt Stop.spin
  | fuel + 1, buf, size, sent =>
    if sent ≠ size then do
      let n ← send_fully (buf.drop sent.toNat) (size - sent)
      send_rest fuel buf size (wrap_int (sent + n))
    else Exec.pure sent

/-- `send_request(client, head, head_size, body, body_size)`. -/
def send_request (head : List Nat) (head_size : Int) (body : List Nat) (body_size : Int) :
    Exec Unit := do
  let header_sent ← send_fully head head_size
  let body_sent ← send_rest (body_size.toNat + 1) body body_size 0
  assert (header_sent = head_size)
  assert (body_sent = body_size)
  pthread_mutex_lock Mutex.stats_lock
  modify_state (fun s => { s with reqs := wrap_int (s.reqs + 1) })
  modify_state (fun s => { s with head_bytes := wrap_int (s.head_bytes + head_size) })
  modify_state (fun s => { s with body_bytes := wrap_int (s.body_bytes + body_size) })
  pthread_mutex_unlock Mutex.stats_lock

/-- `send_error(client, error)`. -/
def send_error (error : List Nat) : Exec Unit := do
  let len : Int := (error.length : Int)
  let sent ← send_fully error len
  assert (sent = len)
  pthread_mutex_lock Mutex.stats_lock
  modify_state (fun s => { s with errs := wrap_int (s.errs + 1) })
  modify_state (fun s => { s with err_bytes := wrap_int (s.err_bytes + len) })
  pthread_mutex_unlock Mutex.stats_lock

/-- `handle_ping(client)`: `head` and `body` are filled from the two constants. -/
def handle_ping : Exec Unit := do
  let head_size : Int := (ping_header.length : Int)
  let head := ping_header
  let body_size : Int := (ping_body.length : Int)
  let body := ping_body
  send_request head head_size body body_size

/-- `handle_echo(client, request)`. -/
def handle_echo (request : List Nat) : Exec Unit := do
  -- char* end = strstr(request, "\r\n\r\n"); if (end == NULL) end = request+1024;
  let found ← defined (strstr crlfcrlf request)
  let e : Nat := match found with
    | some i => i
    | none => 1024
  -- *end = '\0';
  let request ← defined (if e < request.length then some (request.set e 0) else none)
  -- char* start = strstr(request, "\r\n"); assert(start != NULL); start += 2;
  let found ← defined (strstr crlf request)
  assert found.isSome
  let start : Nat := found.getD 0 + 2
  -- body_size = strlen(start); memcpy(body, start, body_size);  with char body[1024]
  let n ← defined (strlen (request.drop start))
  let body_size : Int := (n : Int)
  let body ← defined (if n ≤ 1024 then some ((request.drop start).take n) else none)
  -- head_size = snprintf(head, 1024, ok200_response, body_size);
  let (head, head_size) := snprintf 1024 ok200_response [body_size]
  send_request head head_size body body_size

/-- `handle_read(client)`. -/
def handle_read : Exec Unit := do
  pthread_mutex_lock Mutex.write_lock
  let s ← get_state
  let body_size : Int := s.written_size
  -- memcpy(body, written, body_size);  with char body[1024], char written[1024]
  let body ← defined
    (if 0 ≤ body_size ∧ body_size ≤ 1024 ∧ body_size ≤ (s.written.length : Int)
     then some (s.written.take body_size.toNat) else none)
  pthread_mutex_unlock Mutex.write_lock
  let (head, head_size) := snprintf 1024 ok200_response [body_size]
  send_request head head_size body body_size

/-- The loop `while (token != NULL)` of `handle_write` over the array `request`:
returns `length` and the array as `strtok_r` leaves it.  `sscanf` stores through
`&length` only when `%d` converts. -/
def scan_content_length : Nat → List Nat → Option Nat → Nat → Int → Exec (Int × List Nat)
  | 0, _, _, _, _ => halt Stop.spin
  | _ + 1, request, none, _, length => Exec.pure (length, request)
  | fuel + 1, request, some token, saveptr, length => do
    let r ← defined (sscanf (request.drop token) content_len_header)
    let length : Int := match r.ints with
      | v :: _ => v
      | [] => length
    if r.ret ≠ 0 then Exec.pure (length, request)
    else do
      let (request, token, saveptr) ← defined (strtok_r request saveptr crlf)
      scan_content_length fuel request token saveptr length

/-- `handle_write(client, request)`.  `start` is `none` when `strstr` returned NULL:
`NULL + 4` is not NULL, so `assert(start != NULL)` never fails, and the pointer
cannot be read from. -/
def handle_write (request : List Nat) : Exec Unit := do
  -- char* start = strstr(request, "\r\n\r\n"); start += 4; assert(start != NULL);
  let found ← defined (strstr crlfcrlf request)
  let start : Option Nat := found.map (· + 4)
  -- char* token = strtok_r(request, "\r\n", &saveptr); assert(token != NULL);
  let (request, token, saveptr) ← defined (strtok_r request 0 crlf)
  assert token.isSome
  -- token = strtok_r(NULL, "\r\n", &saveptr);
  let (request, token, saveptr) ← defined (strtok_r request saveptr crlf)
  let (length, request) ← scan_content_length (request.length + 1) request token saveptr 0
  assert (length ≠ 0)
  let length : Int := if length > 1024 then 1024 else length
  pthread_mutex_lock Mutex.write_lock
  modify_state (fun s => { s with written_size := length })
  -- memcpy(written, start, written_size);
  let s ← get_state
  let src ← defined (start.map (fun p => request.drop p))
  let written ← defined
    (if 0 ≤ length ∧ length ≤ (src.length : Int) ∧ length ≤ (s.written.length : Int)
     then some (src.take length.toNat ++ s.written.drop length.toNat) else none)
  modify_state (fun s => { s with written := written })
  pthread_mutex_unlock Mutex.write_lock
  handle_read

/-- `handle_stats(client)`. -/
def handle_stats : Exec Unit := do
  pthread_mutex_lock Mutex.stats_lock
  let s ← get_state
  let (body, body_size) :=
    snprintf 1024 stats_response_body [s.reqs, s.head_bytes, s.body_bytes, s.errs, s.err_bytes]
  pthread_mutex_unlock Mutex.stats_lock
  let (head, head_size) := snprintf 1024 ok200_response [body_size]
  send_request head head_size body body_size

/-- The loop `while (total_sent < file_size)` of `handle_file`: `content` is the
file, `offset` the position of the descriptor, `read(fd, body, sizeof(body))`
yields the next at most 1024 bytes. -/
def send_file : Nat → List Nat → Nat → Int → Int → Exec Unit
  | 0, _, _, _, _ => halt Stop.spin
  | fuel + 1, content, offset, file_size, total_sent =>
    if total_sent < file_size then do
      let body := (content.drop offset).take 1024
      let file_read : Int := (body.length : Int)
      let file_sent ← send_fully body file_read
      let file_sent ← send_rest (body.length + 1) body file_read file_sent
      assert (file_sent = file_read)
      pthread_mutex_lock Mutex.stats_lock
      modify_state (fun s => { s with body_bytes := wrap_int (s.body_bytes + file_sent) })
      pthread_mutex_unlock Mutex.stats_lock
      send_file fuel content (offset + body.length) file_size (wrap_int (total_sent + file_sent))
    else Exec.pure ()

/-- `handle_file(client, request)`.  The file system is the parameter `fs`: the
contents of the file at a path when `open(path, O_RDONLY)` succeeds.  `path` is
an array of 128 bytes.  The handler ends with two calls of
`pthread_mutex_lock(&stats_lock)`. -/
def handle_file (fs : List Nat → Option (List Nat)) (request : List Nat) : Exec Unit := do
  -- int found = sscanf(request, file_request, path); assert(found > 0);
  let r ← defined (sscanf request file_request)
  let path ← defined (match r.strs with
    | p :: _ => if p.length + 1 ≤ 128 then some p else none
    | [] => some [])
  assert (r.ret > 0)
  match fs path with
  | none => do
    send_error err404_response
    close_client
  | some content => do
    let file_size : Int := wrap_int (content.length : Int)
    let (head, head_size) := snprintf 1024 ok200_response [file_size]
    let sent ← send_fully head head_size
    assert (sent = head_size)
    pthread_mutex_lock Mutex.stats_lock
    modify_state (fun s => { s with head_bytes := wrap_int (s.head_bytes + head_size) })
    pthread_mutex_unlock Mutex.stats_lock
    send_file (content.length + 1) content 0 file_size 0
    pthread_mutex_lock Mutex.stats_lock
    modify_state (fun s => { s with reqs := wrap_int (s.reqs + 1) })
    pthread_mutex_lock Mutex.stats_lock
    close_client

/-- `handle_client_request(client)`, from the value `len` and the contents of
`request` that `recv_http_request` (declared in `a5.h`) leaves. -/
def handle_client_request (fs : List Nat → Option (List Nat)) (len : Int)
    (request : List Nat) : Exec Unit :=
  if len = 0 then Exec.pure ()
  else do
    assert (len > 0)
    let c ← defined (strncmp request ping_request ping_request.length)
    if c = 0 then do
      handle_ping
      close_client
    else do
    let c ← defined (strncmp request echo_request echo_request.length)
    if c = 0 then do
      handle_echo request
      close_client
    else do
    let c ← defined (strncmp request write_request write_request.length)
    if c = 0 then do
      handle_write request
      close_client
    else do
    let c ← defined (strncmp request read_request read_request.length)
    if c = 0 then do
      handle_read
      close_client
    else do
    let c ← defined (strncmp request stats_request stats_request.length)
    if c = 0 then do
      handle_stats
      close_client
    else do
    let c ← defined (strncmp request (bytes "GET ") 4)
    if c = 0 then
      handle_file fs request
    else do
      send_error err400_response
      close_client

/-- One request handled on a fresh client socket: what a worker does with the
socket it took from the queue. -/
def serve (fs : List Nat → Option (List Nat)) (len : Int) (request : List Nat) :
    Exec Unit := fun s =>
  handle_client_request fs len request { s with sent := [], closed := false }

/-- Requests handled one after another. -/
def serve_all (fs : List Nat → Option (List Nat)) : List (Int × List Nat) → Exec Unit
  | [] => Exec.pure ()
  | (len, request) :: rest => do
    serve fs len request
    serve_all fs rest

/-! ## The connection queue -/

/-- The queue globals of `a5.c`: the array `clients` of `n_threads` sockets, the
indices `front` and `rear`, and the values of the semaphores `slots` and `items`. -/
structure Queue where
  clients : List Int
  front : Nat
  rear : Nat
  n_threads : Nat
  slots : Nat
  items : Nat
  deriving DecidableEq, Repr

/-- The queue as `create_server_socket(port, threads)` sets it up; `heap` is the
indeterminate contents of the block that `malloc` returns for `clients`. -/
def create_server_socket (threads : Nat) (heap : Nat → Int) : Queue :=
  { clients := (List.range threads).map heap
    n_threads := threads
    front := 0
    rear := 0
    slots := threads
    items := 0 }

/-- The enqueue step of `accept_client` for the accepted socket: `sem_wait(&slots)`
(`none`: the caller waits), the store at `rear`, the advance of `rear`,
`sem_post(&items)`.  The two calls of `pthread_mutex_destroy` on the handler locks
that end `accept_client` do not touch the queue and are not part of the step. -/
def accept_client (q : Queue) (client_socket : Int) : Option Queue :=
  if q.slots = 0 then none
  else some
    { q with
      slots := q.slots - 1
      clients := q.clients.set q.rear client_socket
      rear := (q.rear + 1) % q.n_threads
      items := q.items + 1 }

/-- The dequeue step of `consumer`: `sem_wait(&items)` (`none`: the worker waits),
the load from `front`, the advance of `front`, `sem_post(&slots)`.  Returns the
socket that is handed to `handle_client_request`. -/
def consumer (q : Queue) : Option (Int × Queue) :=
  if q.items = 0 then none
  else some
    (q.clients.getD q.front 0,
     { q with
       items := q.items - 1
       front := (q.front + 1) % q.n_threads
       slots := q.slots + 1 })

/-- A step of the queue: the acceptor enqueues a socket, or a worker dequeues. -/
inductive Op where
  | enqueue (client_socket : Int)
  | dequeue
  deriving DecidableEq, Repr

/-- The sockets enqueued by a sequence of steps, in order. -/
def enqueued : List Op → List Int
  | [] => []
  | Op.enqueue c :: ops => c :: enqueued ops
  | Op.dequeue :: ops => enqueued ops

/-- A sequence of steps run from a queue state: the final state and the sockets
the dequeues returned, in order; `none` when a step of the sequence would have
to wait (the sequence does not respect the blocking conditions). -/
def run_queue : List Op → Queue → Option (Queue × List Int)
  | [], q => some (q, [])
  | Op.enqueue c :: ops, q =>
    match accept_client q c with
    | none => none
    | some q1 => run_queue ops q1
  | Op.dequeue :: ops, q =>
    match consumer q with
    | none => none
    | some (c, q1) =>
      match run_queue ops q1 with
      | none => none
      | some (q2, out) => some (q2, c :: out)

/-- The queue states reachable from the initial state of a pool of `n` workers by
enqueue and dequeue steps. -/
inductive Reachable (n : Nat) (heap : Nat → Int) : Queue → Prop where
  | init : Reachable n heap (create_server_socket n heap)
  | enqueue (q q1 : Queue) (c : Int) :
      Reachable n heap q → accept_client q c = some q1 → Reachable n heap q1
  | dequeue (q q1 : Queue) (c : Int) :
      Reachable n heap q → consumer q = some (c, q1) → Reachable n heap q1

/-- The sockets waiting in the queue, oldest first: the `items` entries of
`clients` from `front` on, modulo `n_threads`. -/
def pending (q : Queue) : List Int :=
  (List.range q.items).map (fun i => q.clients.getD ((q.front + i) % q.n_threads) 0)

/-- The bookkeeping invariant of the queue of a pool of `n` workers. -/
def QueueInv (n : Nat) (q : Queue) : Prop :=
  q.n_threads = n ∧ q.clients.length = n ∧ q.front < n ∧
    q.rear = (q.front + q.items) % n ∧ q.items + q.slots = n

/-- A request that fails each of the six tests of `handle_client_request`, the
test for `GET ` included, and so reaches `send_error(client, err400_response)`. -/
def falls_through (request : List Nat) : Prop :=
  ¬ ping_request <+: request ∧ ¬ echo_request <+: request ∧ ¬ write_request <+: request ∧
    ¬ read_request <+: request ∧ ¬ stats_request <+: request ∧ ¬ bytes "GET " <+: request

/-- A request `GET /<path> HTTP/1.1` for a file that cannot be opened: the path is
not empty, holds no white space and no NUL and fits the 128 bytes of `path`, the
array holds a NUL after the request line, and the request is none of `ping`,
`echo`, `read`, `stats`. -/
def missing_file (fs : List Nat → Option (List Nat)) (request : List Nat) : Prop :=
  ∃ path rest : List Nat,
    request = bytes "GET /" ++ path ++ bytes " HTTP/1.1\r\n" ++ rest ∧
    path ≠ [] ∧ (∀ c ∈ path, c ≠ 0 ∧ isspace c = false) ∧ path.length < 128 ∧
    0 ∈ rest ∧ fs path = none ∧
    ¬ ping_request <+: request ∧ ¬ echo_request <+: request ∧
    ¬ read_request <+: request ∧ ¬ stats_request <+: request

/-- The three kinds of request of the accounting claim, by the answer they get. -/
inductive Answer where
  | pong
  | not_found
  | bad_request
  deriving DecidableEq, Repr

/-- A received request, in the 2048 bytes of `request`, that gets the given
answer: a `ping` request (`pong`), a request `GET /<path> HTTP/1.1` for a file
that cannot be opened (404), a request that fails all six tests of the dispatcher
(400). -/
def answered (fs : List Nat → Option (List Nat)) (a : Answer) (len : Int)
    (request : List Nat) : Prop :=
  0 < len ∧ request.length = 2048 ∧
    match a with
    | Answer.pong => ping_request <+: request
    | Answer.not_found => missing_file fs request
    | Answer.bad_request => falls_through request

/-- A natural number in decimal, as bytes: the digits are those of `Nat.repr`, the
decimal numeral of the Lean library, not those of the function `dec` that models
`%d`. -/
def decimal (n : Nat) : List Nat := bytes (Nat.repr n)

/-- The body of the `stats` response that the accounting claim states, for `n`
pings, `a` responses 404 and `b` responses 400: the five numbers `n`, `38 n`,
`4 n`, `a + b` and `22 a + 24 b` in decimal. -/
def stats_text (n a b : Nat) : List Nat :=
  bytes "Requests: " ++ decimal n ++ bytes "\nHeader bytes: " ++ decimal (38 * n)
    ++ bytes "\nBody bytes: " ++ decimal (4 * n) ++ bytes "\nErrors: "
    ++ decimal (a + b) ++ bytes "\nError bytes: " ++ decimal (22 * a + 24 * b)

/-- A header line: not empty, without NUL, CR or LF. -/
def header_line (h : List Nat) : Prop := h ≠ [] ∧ ∀ c ∈ h, c ≠ 0 ∧ c ≠ 13 ∧ c ≠ 10

/-- Lines as they stand in a request: each followed by `\r\n`. -/
def header_block : List (List Nat) → List Nat
  | [] => []
  | h :: hs => h ++ 13 :: 10 :: header_block hs

/-- A line on which `sscanf(token, content_len_header, &length)` returns 0. -/
def not_content_length (h : List Nat) : Prop :=
  (sscanf_go (parse_format content_len_header) h 0 [] []).ret = 0

/-- Lines as `strtok_r` leaves them: a NUL written over the `\r` after each. -/
def tokenized : List (List Nat) → List Nat
  | [] => []
  | h :: hs => h ++ 0 :: 10 :: tokenized hs

/-- Lines of which the first is the current token of `strtok_r` (a NUL after
it) and the others are still as in the request, followed by `rest`. -/
def token_layout : List (List Nat) → List Nat → List Nat
  | [], rest => rest
  | h :: hs, rest => h ++ 0 :: 10 :: (header_block hs ++ rest)

/-- The header line `Content-Length: <x>` with `x` in decimal. -/
def content_length_line (x : Int) : List Nat := bytes "Content-Length: " ++ dec x

/-- What is left of `handle_write` once the request is parsed: `x` is the value
of `length` after the loop and `src` the bytes at `start`. -/
def handle_write_store (x : Int) (src : List Nat) : Exec Unit := do
  assert (x ≠ 0)
  let length : Int := if x > 1024 then 1024 else x
  pthread_mutex_lock Mutex.write_lock
  modify_state (fun s => { s with written_size := length })
  let s ← get_state
  let written ← defined
    (if 0 ≤ length ∧ length ≤ (src.length : Int) ∧ length ≤ (s.written.length : Int)
     then some (src.take length.toNat ++ s.written.drop length.toNat) else none)
  modify_state (fun s => { s with written := written })
  pthread_mutex_unlock Mutex.write_lock
  handle_read

/-! ## Theorems -/

/-! ### Machine integers -/

theorem wrap_int_of_range (x : Int) (h1 : -2147483648 ≤ x) (h2 : x < 2147483648) :
    wrap_int x = x := by
  unfold wrap_int
  omega

theorem wrap_int_range (x : Int) : -2147483648 ≤ wrap_int x ∧ wrap_int x < 2147483648 := by
  unfold wrap_int
  omega

theorem wrap_int_add_wrap (a b : Int) : wrap_int (wrap_int a + b) = wrap_int (a + b) := by
  unfold wrap_int
  omega

theorem store_int_of_range (x : Int) (h1 : -2147483648 ≤ x) (h2 : x < 2147483648) :
    store_int x = x := by
  unfold store_int
  rw [min_eq_left (by omega), max_eq_right (by omega)]
  exact wrap_int_of_range x h1 h2

/-! ### The connection queue -/

theorem queueInv_init (n : Nat) (hn : 1 ≤ n) (heap : Nat → Int) :
    QueueInv n (create_server_socket n heap) := by
  refine ⟨rfl, ?_, ?_, ?_, ?_⟩ <;> simp [create_server_socket]
  · omega

theorem mod_ne_of_lt {n f i k : Nat} (hik : i < k) (hk : k < n) :
    (f + i) % n ≠ (f + k) % n := by
  intro h
  have h1 : i ≡ k [MOD n] := Nat.ModEq.add_left_cancel' f h
  have h2 : i = k := Nat.ModEq.eq_of_lt_of_lt h1 (by omega) hk
  omega

theorem accept_client_spec (n : Nat) (q q1 : Queue) (c : Int) (hq : QueueInv n q)
    (h : accept_client q c = some q1) :
    QueueInv n q1 ∧ pending q1 = pending q ++ [c] := by
  obtain ⟨hn, hlen, hfront, hrear, hsum⟩ := hq
  unfold accept_client at h
  split at h
  · simp at h
  · rename_i hslots
    simp only [Option.some.injEq] at h
    subst h
    have hitems : q.items < n := by omega
    refine ⟨⟨hn, ?_, hfront, ?_, ?_⟩, ?_⟩
    · simpa using hlen
    · simp only [hn, hrear]
      rw [Nat.add_mod, Nat.mod_mod, ← Nat.add_mod, Nat.add_assoc]
    · simp only; omega
    · simp only [pending, List.range_succ, List.map_append, List.map_cons, List.map_nil, hn]
      congr 1
      · apply List.map_congr_left
        intro i hi
        have hi' : i < q.items := List.mem_range.mp hi
        have hne : (q.front + i) % n ≠ q.rear := by
          rw [hrear]; exact mod_ne_of_lt hi' hitems
        simp [List.getD_eq_getElem?_getD, List.getElem?_set, Ne.symm hne]
      · have hr : q.rear < q.clients.length := by
          rw [hrear, hlen]; exact Nat.mod_lt _ (by omega)
        have hr2 : (q.front + q.items) % n < q.clients.length := hrear ▸ hr
        simp [List.getD_eq_getElem?_getD, List.getElem?_set, hrear, hr2]


theorem consumer_spec (n : Nat) (q q1 : Queue) (c : Int) (hq : QueueInv n q)
    (h : consumer q = some (c, q1)) :
    QueueInv n q1 ∧ pending q = c :: pending q1 := by
  obtain ⟨hn, hlen, hfront, hrear, hsum⟩ := hq
  unfold consumer at h
  split at h
  · simp at h
  · rename_i hitems
    simp only [Option.some.injEq, Prod.mk.injEq] at h
    obtain ⟨hc, hq1⟩ := h
    subst hq1
    obtain ⟨k, hk⟩ : ∃ k, q.items = k + 1 := ⟨q.items - 1, by omega⟩
    have hnpos : 0 < n := by omega
    refine ⟨⟨hn, hlen, ?_, ?_, ?_⟩, ?_⟩
    · simp only [hn]; exact Nat.mod_lt _ hnpos
    · simp only [hn, hrear, hk, Nat.add_sub_cancel]
      rw [Nat.add_mod ((q.front + 1) % n), Nat.mod_mod, ← Nat.add_mod]
      congr 1; omega
    · simp only; omega
    · simp only [pending, hk, Nat.add_sub_cancel, hn, List.range_succ_eq_map, List.map_cons,
        List.map_map, Nat.add_zero]
      congr 1
      · rw [Nat.mod_eq_of_lt hfront]; exact hc
      · apply List.map_congr_left
        intro i _
        simp only [Function.comp]
        congr 1
        rw [Nat.add_mod ((q.front + 1) % n), Nat.mod_mod, ← Nat.add_mod]
        congr 1; omega

theorem run_queue_spec (n : Nat) (ops : List Op) :
    ∀ (q0 q : Queue) (out : List Int), QueueInv n q0 → run_queue ops q0 = some (q, out) →
      QueueInv n q ∧ pending q0 ++ enqueued ops = out ++ pending q := by
  induction ops with
  | nil =>
    intro q0 q out hq h
    simp only [run_queue, Option.some.injEq, Prod.mk.injEq] at h
    obtain ⟨rfl, rfl⟩ := h
    exact ⟨hq, by simp [enqueued]⟩
  | cons op ops ih =>
    intro q0 q out hq h
    cases op with
    | enqueue c =>
      simp only [run_queue] at h
      cases h1 : accept_client q0 c with
      | none => simp [h1] at h
      | some q1 =>
        simp only [h1] at h
        obtain ⟨hq1, hp⟩ := accept_client_spec n q0 q1 c hq h1
        obtain ⟨hq2, hp2⟩ := ih q1 q out hq1 h
        refine ⟨hq2, ?_⟩
        rw [← hp2, hp]; simp [enqueued]
    | dequeue =>
      simp only [run_queue] at h
      cases h1 : consumer q0 with
      | none => simp [h1] at h
      | some r =>
        obtain ⟨c, q1⟩ := r
        simp only [h1] at h
        cases h2 : run_queue ops q1 with
        | none => simp [h2] at h
        | some r2 =>
          obtain ⟨q2, out2⟩ := r2
          simp only [h2, Option.some.injEq, Prod.mk.injEq] at h
          obtain ⟨rfl, rfl⟩ := h
          obtain ⟨hq1, hp⟩ := consumer_spec n q0 q1 c hq h1
          obtain ⟨hq2, hp2⟩ := ih q1 q2 out2 hq1 h2
          refine ⟨hq2, ?_⟩
          simp only [enqueued, hp, List.cons_append, hp2]

theorem reachable_inv (n : Nat) (hn : 1 ≤ n) (heap : Nat → Int) (q : Queue)
    (h : Reachable n heap q) : QueueInv n q := by
  induction h with
  | init => exact queueInv_init n hn heap
  | enqueue q q1 c _ hstep ih => exact (accept_client_spec n q q1 c ih hstep).1
  | dequeue q q1 c _ hstep ih => exact (consumer_spec n q q1 c ih hstep).1

/-- C2 (queue invariant).  In every queue state reachable, for a pool of `n ≥ 1`
workers, from the state set up by `create_server_socket` through the enqueue step
of `accept_client` and the dequeue step of `consumer`, the number of queued items
plus the number of free slots is `n`; when `n` items are queued the enqueue step
is not taken (the acceptor waits), and when none is queued the dequeue step is
not taken (the worker waits). -/
theorem queue_invariant (n : Nat) (hn : 1 ≤ n) (heap : Nat → Int) (q : Queue)
    (h : Reachable n heap q) :
    q.items + q.slots = n ∧
      (q.items = n → ∀ c : Int, accept_client q c = none) ∧
      (q.items = 0 → consumer q = none) := by
  obtain ⟨_, _, _, _, hsum⟩ := reachable_inv n hn heap q h
  refine ⟨hsum, ?_, ?_⟩
  · intro hfull c
    have : q.slots = 0 := by omega
    simp [accept_client, this]
  · intro hempty
    simp [consumer, hempty]

theorem queue_invariant_witness :
    Reachable 2 (fun _ => 0)
        { clients := [5, 0], front := 0, rear := 1, n_threads := 2, slots := 1, items := 1 } ∧
      ((1 : Nat) + 1 = 2 ∧
        (1 = 2 → ∀ c : Int, accept_client
          { clients := [5, 0], front := 0, rear := 1, n_threads := 2, slots := 1, items := 1 } c
            = none) ∧
        (1 = 0 → consumer
          { clients := [5, 0], front := 0, rear := 1, n_threads := 2, slots := 1, items := 1 }
            = none)) :=
  ⟨Reachable.enqueue (create_server_socket 2 (fun _ => 0)) _ 5 Reachable.init (by decide),
   queue_invariant 2 (by decide) (fun _ => 0)
     { clients := [5, 0], front := 0, rear := 1, n_threads := 2, slots := 1, items := 1 }
     (Reachable.enqueue (create_server_socket 2 (fun _ => 0)) _ 5 Reachable.init (by decide))⟩

/-- C3 (FIFO order).  For a pool of `n ≥ 1` workers and every sequence of enqueue
and dequeue steps in which no step has to wait, the sockets returned by the
dequeues are a prefix of the sockets enqueued, in the same order, and the
enqueued sockets not yet returned are exactly those waiting in the ring, in
order: none is returned twice and none is lost. -/
theorem fifo_order (n : Nat) (hn : 1 ≤ n) (heap : Nat → Int) (ops : List Op) (q : Queue)
    (out : List Int) (h : run_queue ops (create_server_socket n heap) = some (q, out)) :
    out <+: enqueued ops ∧ enqueued ops = out ++ pending q := by
  have h0 := run_queue_spec n ops _ q out (queueInv_init n hn heap) h
  have hp : pending (create_server_socket n heap) = [] := by
    simp [pending, create_server_socket]
  rw [hp, List.nil_append] at h0
  exact ⟨⟨pending q, h0.2.symm⟩, h0.2⟩


theorem fifo_order_witness :
    run_queue [Op.enqueue 5, Op.enqueue 6, Op.dequeue, Op.enqueue 7, Op.dequeue]
        (create_server_socket 2 (fun _ => 0))
        = some ({ clients := [7, 6], front := 0, rear := 1, n_threads := 2, slots := 1,
                  items := 1 }, [5, 6]) ∧
      ([5, 6] <+: enqueued [Op.enqueue 5, Op.enqueue 6, Op.dequeue, Op.enqueue 7, Op.dequeue] ∧
        enqueued [Op.enqueue 5, Op.enqueue 6, Op.dequeue, Op.enqueue 7, Op.dequeue]
          = [5, 6] ++ pending { clients := [7, 6], front := 0, rear := 1, n_threads := 2,
                                slots := 1, items := 1 }) :=
  ⟨by decide, fifo_order 2 (by decide) (fun _ => 0) _ _ _ (by decide)⟩

/-! ### Running a handler -/

@[simp] theorem bind_apply {α β : Type} (m : Exec α) (f : α → Exec β) (s : Server) :
    (m >>= f) s = match m s with
      | Step.ok a s1 => f a s1
      | Step.stop why s1 => Step.stop why s1 := rfl

@[simp] theorem pure_apply {α : Type} (a : α) (s : Server) :
    (pure a : Exec α) s = Step.ok a s := rfl

@[simp] theorem exec_pure_apply {α : Type} (a : α) (s : Server) :
    (Exec.pure a : Exec α) s = Step.ok a s := rfl

theorem send_fully_ok (buf : List Nat) (n : Nat) (h : n ≤ buf.length) (s : Server) :
    send_fully buf (n : Int) s = Step.ok (n : Int) { s with sent := s.sent ++ buf.take n } := by
  simp [send_fully, h]

theorem send_rest_ok (buf : List Nat) (n : Nat) (h : n ≤ buf.length) (hn : n < 2147483648)
    (s : Server) :
    send_rest (n + 1) buf (n : Int) 0 s
      = Step.ok (n : Int) { s with sent := s.sent ++ buf.take n } := by
  cases n with
  | zero => simp [send_rest]
  | succ k =>
    have h1 : ¬ ((0 : Int) = ((k + 1 : Nat) : Int)) := by omega
    have h2 := send_fully_ok buf (k + 1) h s
    have h3 : wrap_int (((k + 1 : Nat) : Int)) = ((k + 1 : Nat) : Int) :=
      wrap_int_of_range _ (by omega) (by omega)
    simp only [Nat.cast_add, Nat.cast_one] at h1 h2 h3
    simp [send_rest, h1, h2, h3]

theorem send_request_ok (head body : List Nat) (hs bs : Nat) (hh : hs ≤ head.length)
    (hb : bs ≤ body.length) (hbs : bs < 2147483648) (s : Server)
    (hlock : s.stats_lock = false) :
    send_request head (hs : Int) body (bs : Int) s
      = Step.ok ()
          { s with
            sent := s.sent ++ head.take hs ++ body.take bs
            reqs := wrap_int (s.reqs + 1)
            head_bytes := wrap_int (s.head_bytes + hs)
            body_bytes := wrap_int (s.body_bytes + bs)
            stats_lock := false } := by
  obtain ⟨w, ws, wl, r, hby, bby, e, eb, sl, sn, cl⟩ := s
  simp only at hlock
  subst hlock
  have h1 := send_fully_ok head hs hh ⟨w, ws, wl, r, hby, bby, e, eb, false, sn, cl⟩
  have h2 := send_rest_ok body bs hb hbs
    ⟨w, ws, wl, r, hby, bby, e, eb, false, sn ++ head.take hs, cl⟩
  simp only at h1 h2
  simp [send_request, h1, h2, assert, pthread_mutex_lock, pthread_mutex_unlock, Mutex.held,
    Mutex.set, modify_state]

theorem send_error_ok (error : List Nat) (s : Server) (hlock : s.stats_lock = false) :
    send_error error s
      = Step.ok ()
          { s with
            sent := s.sent ++ error
            errs := wrap_int (s.errs + 1)
            err_bytes := wrap_int (s.err_bytes + error.length)
            stats_lock := false } := by
  obtain ⟨w, ws, wl, r, hby, bby, e, eb, sl, sn, cl⟩ := s
  simp only at hlock
  subst hlock
  have h1 := send_fully_ok error error.length (le_refl _) ⟨w, ws, wl, r, hby, bby, e, eb, false, sn, cl⟩
  simp only [List.take_length] at h1
  simp [send_error, h1, assert, pthread_mutex_lock, pthread_mutex_unlock, Mutex.held,
    Mutex.set, modify_state]

theorem strncmp_append (lit rest : List Nat) (h : ∀ c ∈ lit, c ≠ 0) :
    strncmp (lit ++ rest) lit lit.length = some 0 := by
  induction lit with
  | nil => simp [strncmp]
  | cons c cs ih =>
    have hc : c ≠ 0 := h c (List.mem_cons_self _ _)
    simp [strncmp, hc]
    exact ih (fun x hx => h x (List.mem_cons_of_mem _ hx))

theorem handle_ping_ok (s : Server) (hlock : s.stats_lock = false) :
    handle_ping s
      = Step.ok ()
          { s with
            sent := s.sent ++ ping_header ++ ping_body
            reqs := wrap_int (s.reqs + 1)
            head_bytes := wrap_int (s.head_bytes + 38)
            body_bytes := wrap_int (s.body_bytes + 4)
            stats_lock := false } := by
  have h := send_request_ok ping_header ping_body ping_header.length ping_body.length
    (le_refl _) (le_refl _) (by decide) s hlock
  simp only [List.take_length] at h
  have h38 : ((ping_header.length : Nat) : Int) = 38 := by decide
  have h4 : ((ping_body.length : Nat) : Int) = 4 := by decide
  simp only [handle_ping, h]
  rw [h38, h4]

theorem handle_client_request_ping (fs : List Nat → Option (List Nat)) (len : Int)
    (rest : List Nat) (s : Server) (hlen : 0 < len) (hlock : s.stats_lock = false) :
    handle_client_request fs len (ping_request ++ rest) s
      = Step.ok ()
          { s with
            sent := s.sent ++ ping_header ++ ping_body
            reqs := wrap_int (s.reqs + 1)
            head_bytes := wrap_int (s.head_bytes + 38)
            body_bytes := wrap_int (s.body_bytes + 4)
            stats_lock := false
            closed := true } := by
  have h0 : len ≠ 0 := by omega
  have h1 : strncmp (ping_request ++ rest) ping_request ping_request.length = some 0 :=
    strncmp_append _ _ (by decide)
  simp [handle_client_request, h0, hlen, assert, h1, defined, handle_ping_ok s hlock,
    close_client, modify_state]


theorem strncmp_spec (lit : List Nat) (hnz : ∀ c ∈ lit, c ≠ 0) :
    ∀ request : List Nat, lit.length ≤ request.length →
      ∃ c : Int, strncmp request lit lit.length = some c ∧ (c = 0 ↔ lit <+: request) := by
  induction lit with
  | nil => intro request _; exact ⟨0, by simp [strncmp]⟩
  | cons b bs ih =>
    intro request hlen
    cases request with
    | nil => simp at hlen
    | cons a as =>
      have hb : b ≠ 0 := hnz b (List.mem_cons_self _ _)
      by_cases hab : a = b
      · subst hab
        obtain ⟨c, hc, hiff⟩ := ih (fun x hx => hnz x (List.mem_cons_of_mem _ hx)) as
          (by simpa using hlen)
        refine ⟨c, ?_, ?_⟩
        · simp [strncmp, hb, hc]
        · rw [hiff, List.cons_prefix_cons]; simp
      · refine ⟨(a : Int) - (b : Int), ?_, ?_⟩
        · simp [strncmp, hab]
        · rw [List.cons_prefix_cons]
          constructor
          · intro h; exact absurd (by omega) hab
          · intro h; exact absurd h.1.symm hab

theorem strncmp_ne (lit : List Nat) (hnz : ∀ c ∈ lit, c ≠ 0) (request : List Nat)
    (hlen : lit.length ≤ request.length) (h : ¬ lit <+: request) :
    ∃ c : Int, strncmp request lit lit.length = some c ∧ c ≠ 0 := by
  obtain ⟨c, hc, hiff⟩ := strncmp_spec lit hnz request hlen
  exact ⟨c, hc, fun h0 => h (hiff.mp h0)⟩

theorem strncmp_eq (lit : List Nat) (hnz : ∀ c ∈ lit, c ≠ 0) (request : List Nat)
    (h : lit <+: request) : strncmp request lit lit.length = some 0 := by
  obtain ⟨rest, rfl⟩ := h
  exact strncmp_append lit rest hnz

theorem handle_client_request_bad (fs : List Nat → Option (List Nat)) (len : Int)
    (request : List Nat) (s : Server) (hlen : 0 < len) (hbuf : 22 ≤ request.length)
    (hlock : s.stats_lock = false) (h : falls_through request) :
    handle_client_request fs len request s
      = Step.ok ()
          { s with
            sent := s.sent ++ err400_response
            errs := wrap_int (s.errs + 1)
            err_bytes := wrap_int (s.err_bytes + 24)
            stats_lock := false
            closed := true } := by
  obtain ⟨h1, h2, h3, h4, h5, h6⟩ := h
  have h0 : len ≠ 0 := by omega
  obtain ⟨c1, e1, n1⟩ := strncmp_ne ping_request (by decide) request
    (le_trans (by decide) hbuf) h1
  obtain ⟨c2, e2, n2⟩ := strncmp_ne echo_request (by decide) request
    (le_trans (by decide) hbuf) h2
  obtain ⟨c3, e3, n3⟩ := strncmp_ne write_request (by decide) request
    (le_trans (by decide) hbuf) h3
  obtain ⟨c4, e4, n4⟩ := strncmp_ne read_request (by decide) request
    (le_trans (by decide) hbuf) h4
  obtain ⟨c5, e5, n5⟩ := strncmp_ne stats_request (by decide) request
    (le_trans (by decide) hbuf) h5
  obtain ⟨c6, e6, n6⟩ := strncmp_ne (bytes "GET ") (by decide) request
    (le_trans (by decide) hbuf) h6
  have e6' : strncmp request (bytes "GET ") 4 = some c6 := e6
  have h24 : ((err400_response.length : Nat) : Int) = 24 := by decide
  simp [handle_client_request, h0, hlen, assert, defined, e1, n1, e2, n2, e3, n3, e4, n4, e5,
    n5, e6', n6, send_error_ok err400_response s hlock, close_client, modify_state, h24]

theorem handle_client_request_file (fs : List Nat → Option (List Nat)) (len : Int)
    (request : List Nat) (s : Server) (hlen : 0 < len) (hbuf : 22 ≤ request.length)
    (h1 : ¬ ping_request <+: request) (h2 : ¬ echo_request <+: request)
    (h3 : ¬ write_request <+: request) (h4 : ¬ read_request <+: request)
    (h5 : ¬ stats_request <+: request) (h6 : bytes "GET " <+: request) :
    handle_client_request fs len request s = handle_file fs request s := by
  have h0 : len ≠ 0 := by omega
  obtain ⟨c1, e1, n1⟩ := strncmp_ne ping_request (by decide) request
    (le_trans (by decide) hbuf) h1
  obtain ⟨c2, e2, n2⟩ := strncmp_ne echo_request (by decide) request
    (le_trans (by decide) hbuf) h2
  obtain ⟨c3, e3, n3⟩ := strncmp_ne write_request (by decide) request
    (le_trans (by decide) hbuf) h3
  obtain ⟨c4, e4, n4⟩ := strncmp_ne read_request (by decide) request
    (le_trans (by decide) hbuf) h4
  obtain ⟨c5, e5, n5⟩ := strncmp_ne stats_request (by decide) request
    (le_trans (by decide) hbuf) h5
  have e6 : strncmp request (bytes "GET ") 4 = some 0 :=
    strncmp_eq (bytes "GET ") (by decide) request h6
  simp [handle_client_request, h0, hlen, assert, defined, e1, n1, e2, n2, e3, n3, e4, n4, e5,
    n5, e6]

theorem cstr_append (a rest : List Nat) (hnz : ∀ c ∈ a, c ≠ 0) :
    cstr (a ++ rest) = (cstr rest).map (a ++ ·) := by
  induction a with
  | nil => simp
  | cons c cs ih =>
    have hc : c ≠ 0 := hnz c (List.mem_cons_self _ _)
    simp [cstr, hc, ih (fun x hx => hnz x (List.mem_cons_of_mem _ hx)), Function.comp_def]

theorem cstr_of_mem (rest : List Nat) (h : 0 ∈ rest) : ∃ inp, cstr rest = some inp := by
  induction rest with
  | nil => simp at h
  | cons c cs ih =>
    by_cases hc : c = 0
    · exact ⟨[], by simp [cstr, hc]⟩
    · have : 0 ∈ cs := by
        rcases List.mem_cons.mp h with h1 | h1
        · exact absurd h1.symm hc
        · exact h1
      obtain ⟨inp, hinp⟩ := ih this
      exact ⟨c :: inp, by simp [cstr, hc, hinp]⟩

/-- The directives that convert nothing: ordinary characters and white space. -/
theorem sscanf_go_no_conversion (ds : List Directive)
    (hds : ∀ d ∈ ds, d ≠ Directive.int ∧ d ≠ Directive.str) :
    ∀ (inp : List Nat) (n : Nat) (ints : List Int) (strs : List (List Nat)),
      sscanf_go ds inp (n + 1) ints strs = ⟨((n + 1 : Nat) : Int), ints, strs⟩ := by
  induction ds with
  | nil => intro inp n ints strs; simp [sscanf_go]
  | cons d ds ih =>
    intro inp n ints strs
    have ih' := ih (fun x hx => hds x (List.mem_cons_of_mem _ hx))
    have hd := hds d (List.mem_cons_self _ _)
    cases d with
    | white => simp [sscanf_go, ih']
    | lit c =>
      cases inp with
      | nil => simp [sscanf_go, input_failure]
      | cons x rest =>
        by_cases hx : x = c
        · simp [sscanf_go, hx, ih']
        · simp [sscanf_go, hx]
    | int => exact absurd rfl hd.1
    | str => exact absurd rfl hd.2

theorem sscanf_go_lit (c : Nat) (ds : List Directive) (rest : List Nat) (n : Nat)
    (ints : List Int) (strs : List (List Nat)) :
    sscanf_go (Directive.lit c :: ds) (c :: rest) n ints strs = sscanf_go ds rest n ints strs := by
  simp [sscanf_go]

theorem sscanf_go_white (ds : List Directive) (inp : List Nat) (n : Nat)
    (ints : List Int) (strs : List (List Nat)) :
    sscanf_go (Directive.white :: ds) inp n ints strs
      = sscanf_go ds (inp.dropWhile isspace) n ints strs := by
  simp [sscanf_go]

theorem sscanf_go_str (ds : List Directive) (x : Nat) (rest : List Nat) (n : Nat)
    (ints : List Int) (strs : List (List Nat)) (hx : isspace x = false) :
    sscanf_go (Directive.str :: ds) (x :: rest) n ints strs
      = sscanf_go ds ((x :: rest).dropWhile (fun c => !isspace c)) (n + 1) ints
          (strs ++ [(x :: rest).takeWhile (fun c => !isspace c)]) := by
  simp only [sscanf_go]
  rw [List.dropWhile_cons_of_neg (by simp [hx])]

theorem parse_format_file_request :
    parse_format file_request =
      [Directive.lit 71, Directive.lit 69, Directive.lit 84, Directive.white, Directive.lit 47,
       Directive.str, Directive.white, Directive.lit 72, Directive.lit 84, Directive.lit 84,
       Directive.lit 80, Directive.lit 47, Directive.lit 49, Directive.lit 46, Directive.lit 49,
       Directive.white, Directive.white] := by decide

theorem sscanf_file_request (path rest : List Nat) (hne : path ≠ [])
    (hpath : ∀ c ∈ path, c ≠ 0 ∧ isspace c = false) (hrest : 0 ∈ rest) :
    sscanf (bytes "GET /" ++ path ++ bytes " HTTP/1.1\r\n" ++ rest) file_request
      = some ⟨1, [], [path]⟩ := by
  obtain ⟨inp, hinp⟩ := cstr_of_mem rest hrest
  have h1 : cstr (bytes "GET /" ++ path ++ bytes " HTTP/1.1\r\n" ++ rest)
      = some (bytes "GET /" ++ path ++ bytes " HTTP/1.1\r\n" ++ inp) := by
    rw [cstr_append _ rest, hinp]; rfl
    intro c hc
    simp only [List.mem_append] at hc
    rcases hc with (hc | hc) | hc
    · revert c; decide
    · exact (hpath c hc).1
    · revert c; decide
  obtain ⟨x, xs, rfl⟩ := List.exists_cons_of_ne_nil hne
  have hx : isspace x = false := (hpath x (List.mem_cons_self _ _)).2
  have htake : List.takeWhile (fun c => !isspace c) (x :: xs ++ bytes " HTTP/1.1\r\n" ++ inp)
      = x :: xs := by
    rw [List.append_assoc, List.takeWhile_append_of_pos]
    · simp [bytes, isspace]
    · intro c hc; simp [(hpath c hc).2]
  have hdrop : List.dropWhile (fun c => !isspace c) (x :: xs ++ bytes " HTTP/1.1\r\n" ++ inp)
      = bytes " HTTP/1.1\r\n" ++ inp := by
    rw [List.append_assoc, List.dropWhile_append_of_pos]
    · simp [bytes, isspace]
    · intro c hc; simp [(hpath c hc).2]
  have hgo := sscanf_go_no_conversion
    [Directive.white, Directive.lit 72, Directive.lit 84, Directive.lit 84,
       Directive.lit 80, Directive.lit 47, Directive.lit 49, Directive.lit 46, Directive.lit 49,
       Directive.white, Directive.white] (by decide) (bytes " HTTP/1.1\r\n" ++ inp) 0 []
       [x :: xs]
  have hb : bytes "GET /" = [71, 69, 84, 32, 47] := by decide
  have h32 : isspace 32 = true := by decide
  have h47 : isspace 47 = false := by decide
  rw [sscanf, h1]
  simp only [Option.map_some', parse_format_file_request, hb, List.cons_append,
    List.nil_append, sscanf_go_lit, sscanf_go_white]
  rw [List.dropWhile_cons_of_pos h32, List.dropWhile_cons_of_neg (by simp [h47]),
    sscanf_go_lit, sscanf_go_str _ _ _ _ _ _ hx]
  simp only [List.cons_append] at htake hdrop
  rw [htake, hdrop]
  exact congrArg some hgo

theorem handle_file_missing (fs : List Nat → Option (List Nat)) (path rest : List Nat)
    (s : Server) (hne : path ≠ []) (hpath : ∀ c ∈ path, c ≠ 0 ∧ isspace c = false)
    (hlen : path.length < 128) (hrest : 0 ∈ rest) (hfs : fs path = none)
    (hlock : s.stats_lock = false) :
    handle_file fs (bytes "GET /" ++ path ++ bytes " HTTP/1.1\r\n" ++ rest) s
      = Step.ok ()
          { s with
            sent := s.sent ++ err404_response
            errs := wrap_int (s.errs + 1)
            err_bytes := wrap_int (s.err_bytes + 22)
            stats_lock := false
            closed := true } := by
  have h22 : ((err404_response.length : Nat) : Int) = 22 := by decide
  have hl : path.length ≤ 127 := by omega
  have hs := sscanf_file_request path rest hne hpath hrest
  simp only [List.append_assoc] at hs
  simp [handle_file, hs, defined, hl, assert, hfs,
    send_error_ok err404_response s hlock, close_client, modify_state, h22]

/-- A path of 128 bytes or more: `sscanf` stores it, with its NUL, past the end of
`path`, an array of 128 bytes; nothing has been sent. -/
theorem handle_file_path_overflow (fs : List Nat → Option (List Nat)) (path rest : List Nat)
    (s : Server) (hpath : ∀ c ∈ path, c ≠ 0 ∧ isspace c = false)
    (hlen : 128 ≤ path.length) (hrest : 0 ∈ rest) :
    handle_file fs (bytes "GET /" ++ path ++ bytes " HTTP/1.1\r\n" ++ rest) s
      = Step.stop Stop.undefined s := by
  have hne : path ≠ [] := by
    intro h
    rw [h] at hlen
    simp at hlen
  have hl : ¬ path.length + 1 ≤ 128 := by omega
  have hs := sscanf_file_request path rest hne hpath hrest
  simp only [List.append_assoc] at hs
  simp only [List.append_assoc, handle_file, bind_apply, hs, defined, exec_pure_apply, hl,
    if_false, halt]

theorem handle_client_request_missing (fs : List Nat → Option (List Nat)) (len : Int)
    (request : List Nat) (s : Server) (hlen : 0 < len) (hbuf : 22 ≤ request.length)
    (hlock : s.stats_lock = false) (h : missing_file fs request) :
    handle_client_request fs len request s
      = Step.ok ()
          { s with
            sent := s.sent ++ err404_response
            errs := wrap_int (s.errs + 1)
            err_bytes := wrap_int (s.err_bytes + 22)
            stats_lock := false
            closed := true } := by
  obtain ⟨path, rest, hreq, hne, hpath, hplen, hrest, hfs, h1, h2, h4, h5⟩ := h
  have h0 : len ≠ 0 := by omega
  have h3 : ¬ write_request <+: request := by
    rintro ⟨t, ht⟩
    rw [hreq] at ht
    simp [write_request, bytes] at ht
  have h6 : bytes "GET " <+: request := by
    rw [hreq]
    exact ⟨bytes "/" ++ path ++ bytes " HTTP/1.1\r\n" ++ rest, by
      simp only [← List.append_assoc]; rfl⟩
  obtain ⟨c1, e1, n1⟩ := strncmp_ne ping_request (by decide) request
    (le_trans (by decide) hbuf) h1
  obtain ⟨c2, e2, n2⟩ := strncmp_ne echo_request (by decide) request
    (le_trans (by decide) hbuf) h2
  obtain ⟨c3, e3, n3⟩ := strncmp_ne write_request (by decide) request
    (le_trans (by decide) hbuf) h3
  obtain ⟨c4, e4, n4⟩ := strncmp_ne read_request (by decide) request
    (le_trans (by decide) hbuf) h4
  obtain ⟨c5, e5, n5⟩ := strncmp_ne stats_request (by decide) request
    (le_trans (by decide) hbuf) h5
  have e6 : strncmp request (bytes "GET ") 4 = some 0 :=
    strncmp_eq (bytes "GET ") (by decide) request h6
  have hf := handle_file_missing fs path rest s hne hpath hplen hrest hfs hlock
  rw [← hreq] at hf
  simp [handle_client_request, h0, hlen, assert, defined, e1, n1, e2, n2, e3, n3, e4, n4, e5,
    n5, e6, hf]

theorem serve_ping (fs : List Nat → Option (List Nat)) (len : Int) (request : List Nat)
    (s : Server) (hlen : 0 < len) (hreq : ping_request <+: request)
    (hlock : s.stats_lock = false) :
    serve fs len request s
      = Step.ok ()
          { s with
            sent := ping_header ++ ping_body
            reqs := wrap_int (s.reqs + 1)
            head_bytes := wrap_int (s.head_bytes + 38)
            body_bytes := wrap_int (s.body_bytes + 4)
            stats_lock := false
            closed := true } := by
  obtain ⟨rest, rfl⟩ := hreq
  have h := handle_client_request_ping fs len rest { s with sent := [], closed := false } hlen
    hlock
  simpa [serve] using h

/-- The bound on the request counter is needed: from the value `INT_MAX` a `ping`
is answered as before and leaves the counter at `INT_MIN`. -/
theorem ping_counter_wraps (fs : List Nat → Option (List Nat)) (len : Int) (rest : List Nat)
    (hlen : 0 < len) :
    handle_client_request fs len (ping_request ++ rest) { Server.init with reqs := 2147483647 }
      = Step.ok ()
          { Server.init with
            sent := ping_header ++ ping_body
            reqs := -2147483648
            head_bytes := 38
            body_bytes := 4
            closed := true } := by
  rw [handle_client_request_ping fs len rest _ hlen rfl]
  rfl

/-- The two error routes of `handle_client_request`.  For every request received
(`len > 0`) in the 2048 bytes of `request`, handled from a state with the counters
lock free: when it is a `GET /<path> HTTP/1.1` whose file cannot be opened
(`missing_file`), the bytes sent are exactly `HTTP/1.1 404 Not Found`, and when it
fails all six tests of the dispatcher (`falls_through`) they are exactly
`HTTP/1.1 400 Bad Request`; the socket is closed, `errs` is increased by 1 and
`err_bytes` by 22, respectively 24 (as `int`s), and nothing else changes. -/
theorem error_routes (fs : List Nat → Option (List Nat)) (len : Int) (request : List Nat)
    (s : Server) (hlen : 0 < len) (hbuf : request.length = 2048)
    (hlock : s.stats_lock = false) :
    (missing_file fs request →
      handle_client_request fs len request s
        = Step.ok ()
            { s with
              sent := s.sent ++ bytes "HTTP/1.1 404 Not Found"
              errs := wrap_int (s.errs + 1)
              err_bytes := wrap_int (s.err_bytes + 22)
              stats_lock := false
              closed := true }) ∧
    (falls_through request →
      handle_client_request fs len request s
        = Step.ok ()
            { s with
              sent := s.sent ++ bytes "HTTP/1.1 400 Bad Request"
              errs := wrap_int (s.errs + 1)
              err_bytes := wrap_int (s.err_bytes + 24)
              stats_lock := false
              closed := true }) :=
  ⟨handle_client_request_missing fs len request s hlen (by omega) hlock,
   handle_client_request_bad fs len request s hlen (by omega) hlock⟩

/-- The request `HELLO` followed by the empty line is answered
`HTTP/1.1 400 Bad Request`: one error, 24 error bytes. -/
theorem error_routes_bad_request (fs : List Nat → Option (List Nat)) :
    handle_client_request fs 9 (bytes "HELLO\r\n\r\n" ++ List.replicate 2039 0) Server.init
      = Step.ok ()
          { Server.init with
            sent := bytes "HTTP/1.1 400 Bad Request"
            errs := 1
            err_bytes := 24
            closed := true } := by
  rw [handle_client_request_bad fs 9 _ Server.init (by decide)
    (by rw [List.length_append, List.length_replicate]; decide) rfl
    ⟨by decide, by decide, by decide, by decide, by decide, by decide⟩]
  rfl

theorem cstr_zeros (a : List Nat) (n : Nat) (hnz : ∀ c ∈ a, c ≠ 0) :
    cstr (a ++ List.replicate (n + 1) 0) = some a := by
  rw [cstr_append a _ hnz, List.replicate_succ]
  simp [cstr]

/-- C6 (error responses), the code fails the claim at the request `GET x` followed
by the empty line (in the 2048 bytes of `request`, the rest zero).  The request
matches none of the recognised prefixes: it is none of `ping`, `echo`, `write`,
`read`, `stats`, and no `/` follows `GET `, so it is no `GET /<path>` either.  The
dispatcher tests only the four bytes `GET ` and calls `handle_file`, where `sscanf`
with the format `GET /%s HTTP/1.1\r\n` converts nothing and returns 0, and
`assert(found > 0)` fails: the process is aborted with nothing sent, the socket
open and the error counters unchanged, where the claim has the response
`HTTP/1.1 400 Bad Request`. -/
theorem get_without_slash_aborts (fs : List Nat → Option (List Nat)) :
    handle_client_request fs 9 (bytes "GET x\r\n\r\n" ++ List.replicate 2039 0) Server.init
      = Step.stop Stop.abort Server.init := by
  have hd := handle_client_request_file fs 9
    (bytes "GET x\r\n\r\n" ++ List.replicate 2039 0) Server.init (by decide)
    (by rw [List.length_append, List.length_replicate]; decide)
    (by decide) (by decide) (by decide) (by decide) (by decide) (by decide)
  have hc : cstr (bytes "GET x\r\n\r\n" ++ List.replicate 2039 0) = some (bytes "GET x\r\n\r\n") :=
    cstr_zeros _ 2038 (by decide)
  have hs : sscanf (bytes "GET x\r\n\r\n" ++ List.replicate 2039 0) file_request
      = some ⟨0, [], []⟩ := by
    rw [sscanf, hc]
    decide
  rw [hd]
  simp only [handle_file, bind_apply, hs, defined, exec_pure_apply, assert]
  rfl

/-! ### Formatted output -/

theorem dec_digits_length (fuel : Nat) :
    ∀ (n : Nat) (acc : List Nat) (k : Nat), n < 10 ^ (k + 1) →
      (dec_digits fuel n acc).length ≤ k + 1 + acc.length := by
  induction fuel with
  | zero => intro n acc k _; simp [dec_digits]
  | succ fuel ih =>
    intro n acc k hn
    by_cases h10 : n < 10
    · simp only [dec_digits, h10, if_true, List.length_cons]; omega
    · simp only [dec_digits, h10, if_false]
      cases k with
      | zero => simp at hn; omega
      | succ k =>
        have h1 : n / 10 < 10 ^ (k + 1) := by
          rw [Nat.div_lt_iff_lt_mul (by decide)]
          rw [pow_succ] at hn
          exact hn
        have := ih (n / 10) ((48 + n % 10) :: acc) k h1
        simp only [List.length_cons] at this
        omega

theorem dec_length (n : Nat) (hn : n < 2 ^ 31) : (dec (n : Int)).length ≤ 10 := by
  have h : ¬ ((n : Int) < 0) := by omega
  simp only [dec, h, if_false, Int.natAbs_ofNat, dec_nat]
  have := dec_digits_length (n + 1) n [] 9 (by omega)
  simpa using this

/-- An `int` prints in at most 11 characters. -/
theorem dec_length_int (x : Int) (hx : fits_int x) : (dec x).length ≤ 11 := by
  obtain ⟨h1, h2⟩ := hx
  have h := dec_digits_length (x.natAbs + 1) x.natAbs [] 9 (by omega)
  simp only [List.length_nil] at h
  unfold dec dec_nat
  split
  · simp only [List.length_cons]; omega
  · omega

theorem digitChar_toNat (k : Nat) (h : k < 10) : (Nat.digitChar k).toNat = 48 + k := by
  interval_cases k <;> rfl

theorem toDigitsCore_dec_digits (fuel : Nat) :
    ∀ (n : Nat) (acc : List Char),
      (Nat.toDigitsCore 10 fuel n acc).map Char.toNat
        = dec_digits fuel n (acc.map Char.toNat) := by
  induction fuel with
  | zero => intro n acc; rfl
  | succ fuel ih =>
    intro n acc
    simp only [Nat.toDigitsCore, dec_digits]
    by_cases h : n < 10
    · have h0 : n / 10 = 0 := by omega
      simp [h0, h, Nat.mod_eq_of_lt h, digitChar_toNat n h]
    · have h0 : ¬ n / 10 = 0 := by omega
      simp [h0, h, ih, digitChar_toNat (n % 10) (Nat.mod_lt _ (by decide))]

/-- What `%d` prints for a natural number is its decimal numeral. -/
theorem dec_nat_decimal (n : Nat) : dec_nat n = decimal n := by
  have h := toDigitsCore_dec_digits (n + 1) n []
  simp only [List.map_nil] at h
  rw [dec_nat, ← h]
  rfl

theorem dec_decimal (n : Nat) : dec (n : Int) = decimal n := by
  have h : ¬ ((n : Int) < 0) := by omega
  simp only [dec, h, if_false, Int.natAbs_ofNat]
  exact dec_nat_decimal n

theorem format_ok200 (n : Int) :
    format ok200_response [n]
      = bytes "HTTP/1.1 200 OK\r\nContent-Length: " ++ dec n ++ bytes "\r\n\r\n" := by
  rfl

theorem format_stats (r h b e eb : Int) :
    format stats_response_body [r, h, b, e, eb]
      = bytes "Requests: " ++ dec r ++ bytes "\nHeader bytes: " ++ dec h
          ++ bytes "\nBody bytes: " ++ dec b ++ bytes "\nErrors: " ++ dec e
          ++ bytes "\nError bytes: " ++ dec eb := by
  have h0 : format stats_response_body [r, h, b, e, eb]
      = bytes "Requests: " ++ (dec r ++ (bytes "\nHeader bytes: " ++ (dec h ++
          (bytes "\nBody bytes: " ++ (dec b ++ (bytes "\nErrors: " ++ (dec e ++
            (bytes "\nError bytes: " ++ (dec eb ++ []))))))))) := rfl
  rw [h0]
  simp only [List.append_assoc, List.append_nil]

theorem send_request_formatted (n : Int) (body : List Nat) (bs : Nat) (s : Server)
    (hfit : (format ok200_response [n]).length ≤ 1023) (hb : bs ≤ body.length)
    (hbs : bs < 2147483648) (hlock : s.stats_lock = false) :
    send_request (snprintf 1024 ok200_response [n]).1 (snprintf 1024 ok200_response [n]).2
        body (bs : Int) s
      = Step.ok ()
          { s with
            sent := s.sent ++ format ok200_response [n] ++ body.take bs
            reqs := wrap_int (s.reqs + 1)
            head_bytes := wrap_int (s.head_bytes + (format ok200_response [n]).length)
            body_bytes := wrap_int (s.body_bytes + bs)
            stats_lock := false } := by
  have h := send_request_ok (format ok200_response [n] ++ [0]) body
    (format ok200_response [n]).length bs (by simp) hb hbs s hlock
  simp only [List.take_left'] at h
  simp only [snprintf, Nat.add_one_sub_one, List.take_of_length_le hfit]
  exact h

theorem format_ok200_length (n : Nat) (hn : n < 2 ^ 31) :
    (format ok200_response [(n : Int)]).length ≤ 1023 := by
  have := dec_length n hn
  rw [format_ok200]
  simp only [List.length_append]
  have h1 : (bytes "HTTP/1.1 200 OK\r\nContent-Length: ").length = 33 := by decide
  have h2 : (bytes "\r\n\r\n").length = 4 := by decide
  omega

theorem format_stats_length (r h b e eb : Int) (hr : fits_int r) (hh : fits_int h)
    (hb : fits_int b) (he : fits_int e) (heb : fits_int eb) :
    (format stats_response_body [r, h, b, e, eb]).length ≤ 116 := by
  have h1 := dec_length_int r hr
  have h2 := dec_length_int h hh
  have h3 := dec_length_int b hb
  have h4 := dec_length_int e he
  have h5 := dec_length_int eb heb
  rw [format_stats]
  simp only [List.length_append]
  have c1 : (bytes "Requests: ").length = 10 := by decide
  have c2 : (bytes "\nHeader bytes: ").length = 15 := by decide
  have c3 : (bytes "\nBody bytes: ").length = 13 := by decide
  have c4 : (bytes "\nErrors: ").length = 9 := by decide
  have c5 : (bytes "\nError bytes: ").length = 14 := by decide
  omega

/-- The handler `handle_stats` from a state whose counters are `int`s: the body is
the format `stats_response_body` filled with the five counters as they are on
entry, and the response is counted as a request afterwards. -/
theorem handle_stats_ok (s : Server) (hfit : s.counters_fit) (hlock : s.stats_lock = false) :
    handle_stats s
      = Step.ok ()
          { s with
            sent := s.sent
              ++ format ok200_response
                  [((format stats_response_body
                      [s.reqs, s.head_bytes, s.body_bytes, s.errs, s.err_bytes]).length : Int)]
              ++ format stats_response_body
                  [s.reqs, s.head_bytes, s.body_bytes, s.errs, s.err_bytes]
            reqs := wrap_int (s.reqs + 1)
            head_bytes := wrap_int (s.head_bytes + (format ok200_response
                  [((format stats_response_body
                      [s.reqs, s.head_bytes, s.body_bytes, s.errs, s.err_bytes]).length
                    : Int)]).length)
            body_bytes := wrap_int (s.body_bytes
              + (format stats_response_body
                  [s.reqs, s.head_bytes, s.body_bytes, s.errs, s.err_bytes]).length)
            stats_lock := false } := by
  obtain ⟨f1, f2, f3, f4, f5⟩ := hfit
  obtain ⟨w, ws, wl, r, h, b, e, eb, sl, sn, cl⟩ := s
  simp only at f1 f2 f3 f4 f5 hlock
  subst hlock
  have hlen := format_stats_length r h b e eb f1 f2 f3 f4 f5
  have hlen1 : (format stats_response_body [r, h, b, e, eb]).length ≤ 1023 := by omega
  have hsend := send_request_formatted
    ((format stats_response_body [r, h, b, e, eb]).length : Int)
    ((format stats_response_body [r, h, b, e, eb]).take 1023 ++ [0])
    (format stats_response_body [r, h, b, e, eb]).length
    ⟨w, ws, wl, r, h, b, e, eb, false, sn, cl⟩
    (format_ok200_length _ (by omega))
    (by rw [List.take_of_length_le hlen1]; simp) (by omega) rfl
  rw [List.take_of_length_le hlen1] at hsend
  simp only [List.take_left'] at hsend
  simp only [handle_stats, bind_apply, pthread_mutex_lock, Mutex.held, get_state, snprintf,
    pthread_mutex_unlock, Mutex.set, Bool.false_eq_true, if_false]
  have e1 : (1024 : Nat) - 1 = 1023 := rfl
  simp only [e1, List.take_of_length_le hlen1]
  exact hsend

/-! ### Accounting -/

theorem wrap_int_cast (k : Nat) (h : k ≤ 2147483647) : wrap_int (k : Int) = (k : Int) :=
  wrap_int_of_range _ (by omega) (by omega)

theorem fits_int_wrap (x : Int) : fits_int (wrap_int x) := by
  have h := wrap_int_range x
  unfold fits_int
  omega

theorem counters_fit_init : Server.init.counters_fit := by
  unfold Server.counters_fit
  decide

theorem serve_answered (fs : List Nat → Option (List Nat)) (a : Answer) (len : Int)
    (request : List Nat) (s : Server) (h : answered fs a len request)
    (hlock : s.stats_lock = false) (hfit : s.counters_fit) :
    ∃ s1 : Server, serve fs len request s = Step.ok () s1 ∧ s1.stats_lock = false ∧
      s1.counters_fit ∧
      s1.reqs = wrap_int (s.reqs + (if a = Answer.pong then 1 else 0)) ∧
      s1.head_bytes = wrap_int (s.head_bytes + (if a = Answer.pong then 38 else 0)) ∧
      s1.body_bytes = wrap_int (s.body_bytes + (if a = Answer.pong then 4 else 0)) ∧
      s1.errs = wrap_int (s.errs + (if a = Answer.pong then 0 else 1)) ∧
      s1.err_bytes = wrap_int (s.err_bytes
        + (if a = Answer.not_found then 22 else 0) + (if a = Answer.bad_request then 24 else 0)) := by
  obtain ⟨hlen, hbuf, hk⟩ := h
  obtain ⟨⟨a1, a2⟩, ⟨b1, b2⟩, ⟨c1, c2⟩, ⟨d1, d2⟩, ⟨e1, e2⟩⟩ := hfit
  have w1 := wrap_int_of_range s.reqs a1 (by omega)
  have w2 := wrap_int_of_range s.head_bytes b1 (by omega)
  have w3 := wrap_int_of_range s.body_bytes c1 (by omega)
  have w4 := wrap_int_of_range s.errs d1 (by omega)
  have w5 := wrap_int_of_range s.err_bytes e1 (by omega)
  cases a with
  | pong =>
    refine ⟨_, serve_ping fs len request s hlen hk hlock, rfl,
      ⟨fits_int_wrap _, fits_int_wrap _, fits_int_wrap _, ⟨d1, d2⟩, ⟨e1, e2⟩⟩, ?_⟩
    simp [w4, w5]
  | not_found =>
    have h1 := handle_client_request_missing fs len request { s with sent := [], closed := false }
      hlen (by omega) hlock hk
    refine ⟨_, h1, rfl,
      ⟨⟨a1, a2⟩, ⟨b1, b2⟩, ⟨c1, c2⟩, fits_int_wrap _, fits_int_wrap _⟩, ?_⟩
    simp [w1, w2, w3]
  | bad_request =>
    have h1 := handle_client_request_bad fs len request { s with sent := [], closed := false }
      hlen (by omega) hlock hk
    refine ⟨_, h1, rfl,
      ⟨⟨a1, a2⟩, ⟨b1, b2⟩, ⟨c1, c2⟩, fits_int_wrap _, fits_int_wrap _⟩, ?_⟩
    simp [w1, w2, w3]

/-- The counters after a sequence of requests answered `pong`, 404 or 400, in any
order: each is the sum of its increments, wrapped to an `int`. -/
theorem serve_all_counters (fs : List Nat → Option (List Nat))
    (rs : List (Answer × Int × List Nat)) :
    ∀ s : Server, s.stats_lock = false → s.counters_fit →
      (∀ r ∈ rs, answered fs r.1 r.2.1 r.2.2) →
      ∃ s1 : Server, serve_all fs (rs.map Prod.snd) s = Step.ok () s1 ∧ s1.stats_lock = false ∧
        s1.counters_fit ∧
        s1.reqs = wrap_int (s.reqs + ((rs.map Prod.fst).count Answer.pong : Nat)) ∧
        s1.head_bytes
          = wrap_int (s.head_bytes + 38 * ((rs.map Prod.fst).count Answer.pong : Nat)) ∧
        s1.body_bytes
          = wrap_int (s.body_bytes + 4 * ((rs.map Prod.fst).count Answer.pong : Nat)) ∧
        s1.errs = wrap_int (s.errs + ((rs.map Prod.fst).count Answer.not_found : Nat)
          + ((rs.map Prod.fst).count Answer.bad_request : Nat)) ∧
        s1.err_bytes
          = wrap_int (s.err_bytes + 22 * ((rs.map Prod.fst).count Answer.not_found : Nat)
              + 24 * ((rs.map Prod.fst).count Answer.bad_request : Nat)) := by
  induction rs with
  | nil =>
    intro s hlock hfit _
    obtain ⟨⟨a1, a2⟩, ⟨b1, b2⟩, ⟨c1, c2⟩, ⟨d1, d2⟩, ⟨e1, e2⟩⟩ := hfit
    refine ⟨s, rfl, hlock, ⟨⟨a1, a2⟩, ⟨b1, b2⟩, ⟨c1, c2⟩, ⟨d1, d2⟩, ⟨e1, e2⟩⟩, ?_⟩
    simp [wrap_int_of_range s.reqs a1 (by omega), wrap_int_of_range s.head_bytes b1 (by omega),
      wrap_int_of_range s.body_bytes c1 (by omega), wrap_int_of_range s.errs d1 (by omega),
      wrap_int_of_range s.err_bytes e1 (by omega)]
  | cons r rs ih =>
    intro s hlock hfit h
    obtain ⟨a, len, request⟩ := r
    obtain ⟨s1, h1, hl1, hf1, c1, c2, c3, c4, c5⟩ :=
      serve_answered fs a len request s (h (a, len, request) (List.mem_cons_self _ _)) hlock hfit
    obtain ⟨s2, h2, hl2, hf2, d1, d2, d3, d4, d5⟩ := ih s1 hl1 hf1
      (fun x hx => h x (List.mem_cons_of_mem _ hx))
    refine ⟨s2, ?_, hl2, hf2, ?_, ?_, ?_, ?_, ?_⟩
    · simp only [List.map_cons, serve_all, bind_apply, h1]
      exact h2
    all_goals
      simp only [List.map_cons, List.count_cons, d1, d2, d3, d4, d5, c1, c2, c3, c4, c5,
        add_assoc, wrap_int_add_wrap]
      congr 1
      cases a <;> simp <;> ring

theorem handle_client_request_stats (fs : List Nat → Option (List Nat)) (len : Int)
    (request : List Nat) (s : Server) (hlen : 0 < len) (hbuf : 22 ≤ request.length)
    (hreq : stats_request <+: request) :
    handle_client_request fs len request s
      = (do handle_stats; close_client : Exec Unit) s := by
  have h0 : len ≠ 0 := by omega
  have n1 : ¬ ping_request <+: request := by
    obtain ⟨t, rfl⟩ := hreq
    rintro ⟨u, hu⟩
    simp [stats_request, ping_request, bytes] at hu
  have n2 : ¬ echo_request <+: request := by
    obtain ⟨t, rfl⟩ := hreq
    rintro ⟨u, hu⟩
    simp [stats_request, echo_request, bytes] at hu
  have n3 : ¬ write_request <+: request := by
    obtain ⟨t, rfl⟩ := hreq
    rintro ⟨u, hu⟩
    simp [stats_request, write_request, bytes] at hu
  have n4 : ¬ read_request <+: request := by
    obtain ⟨t, rfl⟩ := hreq
    rintro ⟨u, hu⟩
    simp [stats_request, read_request, bytes] at hu
  obtain ⟨c1, e1, m1⟩ := strncmp_ne ping_request (by decide) request
    (le_trans (by decide) hbuf) n1
  obtain ⟨c2, e2, m2⟩ := strncmp_ne echo_request (by decide) request
    (le_trans (by decide) hbuf) n2
  obtain ⟨c3, e3, m3⟩ := strncmp_ne write_request (by decide) request
    (le_trans (by decide) hbuf) n3
  obtain ⟨c4, e4, m4⟩ := strncmp_ne read_request (by decide) request
    (le_trans (by decide) hbuf) n4
  have e5 := strncmp_eq stats_request (by decide) request hreq
  simp [handle_client_request, h0, hlen, assert, defined, e1, m1, e2, m2, e3, m3, e4, m4, e5]

/-- The response to a `stats` request that follows a sequence of requests answered
`pong`, 404 or 400 from the initial state: the format `stats_response_body` filled
with the counters, each the sum of its increments wrapped to an `int`. -/
theorem serve_all_then_stats (fs : List Nat → Option (List Nat))
    (rs : List (Answer × Int × List Nat)) (len : Int) (request : List Nat) (n a b : Nat)
    (hrs : ∀ r ∈ rs, answered fs r.1 r.2.1 r.2.2)
    (hn : (rs.map Prod.fst).count Answer.pong = n)
    (ha : (rs.map Prod.fst).count Answer.not_found = a)
    (hb : (rs.map Prod.fst).count Answer.bad_request = b)
    (hlen : 0 < len) (hbuf : request.length = 2048) (hreq : stats_request <+: request) :
    ∃ s1 s2 : Server,
      serve_all fs (rs.map Prod.snd) Server.init = Step.ok () s1 ∧
      serve fs len request s1 = Step.ok () s2 ∧
      s2.sent = format ok200_response
          [((format stats_response_body
              [wrap_int (n : Int), wrap_int (38 * (n : Int)), wrap_int (4 * (n : Int)),
               wrap_int ((a : Int) + b), wrap_int (22 * (a : Int) + 24 * b)]).length : Int)]
        ++ format stats_response_body
              [wrap_int (n : Int), wrap_int (38 * (n : Int)), wrap_int (4 * (n : Int)),
               wrap_int ((a : Int) + b), wrap_int (22 * (a : Int) + 24 * b)] := by
  obtain ⟨s1, h1, hl, hf, c1, c2, c3, c4, c5⟩ :=
    serve_all_counters fs rs Server.init rfl counters_fit_init hrs
  rw [hn] at c1 c2 c3
  rw [ha, hb] at c4 c5
  have i1 : Server.init.reqs = 0 := rfl
  have i2 : Server.init.head_bytes = 0 := rfl
  have i3 : Server.init.body_bytes = 0 := rfl
  have i4 : Server.init.errs = 0 := rfl
  have i5 : Server.init.err_bytes = 0 := rfl
  rw [i1, zero_add] at c1
  rw [i2, zero_add] at c2
  rw [i3, zero_add] at c3
  rw [i4, zero_add] at c4
  rw [i5, zero_add] at c5
  have hs := handle_stats_ok { s1 with sent := [], closed := false } hf hl
  have hd := handle_client_request_stats fs len request { s1 with sent := [], closed := false }
    hlen (by omega) hreq
  simp only [c1, c2, c3, c4, c5] at hs
  have hserve : ∃ s2 : Server, serve fs len request s1 = Step.ok () s2 ∧
      s2.sent = [] ++ format ok200_response
          [((format stats_response_body
              [wrap_int (n : Int), wrap_int (38 * (n : Int)), wrap_int (4 * (n : Int)),
               wrap_int ((a : Int) + b), wrap_int (22 * (a : Int) + 24 * b)]).length : Int)]
        ++ format stats_response_body
              [wrap_int (n : Int), wrap_int (38 * (n : Int)), wrap_int (4 * (n : Int)),
               wrap_int ((a : Int) + b), wrap_int (22 * (a : Int) + 24 * b)] := by
    simp only [serve]
    rw [hd]
    simp only [bind_apply, c1, c2, c3, c4, c5, hs, close_client, modify_state]
    exact ⟨_, rfl, rfl⟩
  obtain ⟨s2, h2, h3⟩ := hserve
  refine ⟨s1, s2, h1, h2, ?_⟩
  rw [h3, List.nil_append]

/-- C7 (stats accounting), as amended: the counters are `int`s, so the sums
`38 n` and `22 a + 24 b` must not exceed `INT_MAX` = 2147483647.  Starting from
the initial counters, after any sequence of requests, in any order, of which `n`
are `ping` requests, `a` are answered 404 and `b` are answered 400, the response
to the next `stats` request is `HTTP/1.1 200 OK\r\nContent-Length: <k>\r\n\r\n`
followed by the body
`Requests: n\nHeader bytes: 38n\nBody bytes: 4n\nErrors: a+b\nError bytes: 22a+24b`
with the five numbers in decimal (`decimal`, the numeral of `Nat.repr`), without
a trailing newline, where `k` is the length of that body, in decimal. -/
theorem stats_accounting (fs : List Nat → Option (List Nat))
    (rs : List (Answer × Int × List Nat)) (len : Int) (request : List Nat) (n a b : Nat)
    (hrs : ∀ r ∈ rs, answered fs r.1 r.2.1 r.2.2)
    (hn : (rs.map Prod.fst).count Answer.pong = n)
    (ha : (rs.map Prod.fst).count Answer.not_found = a)
    (hb : (rs.map Prod.fst).count Answer.bad_request = b)
    (hlen : 0 < len) (hbuf : request.length = 2048) (hreq : stats_request <+: request)
    (hint : 38 * n ≤ 2147483647 ∧ 22 * a + 24 * b ≤ 2147483647) :
    ∃ s1 s2 : Server,
      serve_all fs (rs.map Prod.snd) Server.init = Step.ok () s1 ∧
      serve fs len request s1 = Step.ok () s2 ∧
      s2.sent = bytes "HTTP/1.1 200 OK\r\nContent-Length: "
        ++ decimal (stats_text n a b).length ++ bytes "\r\n\r\n" ++ stats_text n a b := by
  have w1 : wrap_int (n : Int) = ((n : Nat) : Int) := wrap_int_cast n (by omega)
  have w2 : wrap_int (38 * (n : Int)) = ((38 * n : Nat) : Int) := by
    have h := wrap_int_cast (38 * n) hint.1
    push_cast at h
    exact h
  have w3 : wrap_int (4 * (n : Int)) = ((4 * n : Nat) : Int) := by
    have h := wrap_int_cast (4 * n) (by omega)
    push_cast at h
    exact h
  have w4 : wrap_int ((a : Int) + b) = ((a + b : Nat) : Int) := by
    have h := wrap_int_cast (a + b) (by omega)
    push_cast at h
    exact h
  have w5 : wrap_int (22 * (a : Int) + 24 * b) = ((22 * a + 24 * b : Nat) : Int) := by
    have h := wrap_int_cast (22 * a + 24 * b) hint.2
    push_cast at h
    exact h
  obtain ⟨s1, s2, h1, h2, h3⟩ :=
    serve_all_then_stats fs rs len request n a b hrs hn ha hb hlen hbuf hreq
  refine ⟨s1, s2, h1, h2, ?_⟩
  rw [h3, w1, w2, w3, w4, w5]
  simp only [format_ok200, format_stats, dec_decimal, stats_text]

theorem stats_accounting_witness :
    ∃ s1 s2 : Server,
      serve_all (fun _ => none)
        ([(Answer.pong, 22, ping_request ++ List.replicate 2026 0),
          (Answer.not_found, 30,
            bytes "GET /no-such-file HTTP/1.1\r\n\r\n" ++ List.replicate 2018 0),
          (Answer.pong, 22, ping_request ++ List.replicate 2026 0),
          (Answer.bad_request, 9, bytes "HELLO\r\n\r\n" ++ List.replicate 2039 0)].map Prod.snd)
        Server.init = Step.ok () s1 ∧
      serve (fun _ => none) 23 (bytes "GET /stats HTTP/1.1\r\n\r\n" ++ List.replicate 2025 0) s1
        = Step.ok () s2 ∧
      s2.sent = bytes "HTTP/1.1 200 OK\r\nContent-Length: "
        ++ decimal (stats_text 2 1 1).length ++ bytes "\r\n\r\n" ++ stats_text 2 1 1 :=
  stats_accounting (fun _ => none)
    [(Answer.pong, 22, ping_request ++ List.replicate 2026 0),
     (Answer.not_found, 30, bytes "GET /no-such-file HTTP/1.1\r\n\r\n" ++ List.replicate 2018 0),
     (Answer.pong, 22, ping_request ++ List.replicate 2026 0),
     (Answer.bad_request, 9, bytes "HELLO\r\n\r\n" ++ List.replicate 2039 0)]
    23 (bytes "GET /stats HTTP/1.1\r\n\r\n" ++ List.replicate 2025 0) 2 1 1
    (by
      intro r hr
      simp only [List.mem_cons, List.mem_singleton, List.not_mem_nil, or_false] at hr
      rcases hr with rfl | rfl | rfl | rfl
      · exact ⟨by decide, by rw [List.length_append, List.length_replicate]; decide,
          List.prefix_append _ _⟩
      · exact ⟨by decide, by rw [List.length_append, List.length_replicate]; decide,
          bytes "no-such-file", bytes "\r\n" ++ List.replicate 2018 0, by rfl, by decide,
          by decide, by decide,
          List.mem_append_right _ (List.mem_replicate.mpr ⟨by decide, rfl⟩), rfl,
          by decide, by decide, by decide, by decide⟩
      · exact ⟨by decide, by rw [List.length_append, List.length_replicate]; decide,
          List.prefix_append _ _⟩
      · exact ⟨by decide, by rw [List.length_append, List.length_replicate]; decide,
          by decide, by decide, by decide, by decide, by decide, by decide⟩)
    (by decide) (by decide) (by decide) (by decide)
    (by rw [List.length_append, List.length_replicate]; decide)
    ⟨bytes "\r\n" ++ List.replicate 2025 0, by rfl⟩ (by decide)

/-- The response of the example above, written out: two pings, one 404 and one 400
give `Content-Length: 68` and the body below. -/
theorem stats_text_example :
    bytes "HTTP/1.1 200 OK\r\nContent-Length: "
        ++ decimal (stats_text 2 1 1).length ++ bytes "\r\n\r\n" ++ stats_text 2 1 1
      = bytes ("HTTP/1.1 200 OK\r\nContent-Length: 68\r\n\r\n"
          ++ "Requests: 2\nHeader bytes: 76\nBody bytes: 8\nErrors: 2\nError bytes: 46") := by
  decide

/-- C7, the claim as stated fails.  After 56512728 `ping` requests and 97612894
requests for a file that cannot be opened, all answered as the claim says, the sums
`38 * 56512728 = 2147483664` and `22 * 97612894 = 2147483668` exceed `INT_MAX`:
the counters `head_bytes` and `err_bytes` have wrapped around, and the body of the
next `stats` response reads `Header bytes: -2147483632` and
`Error bytes: -2147483628` where the claim has `38 N` and `22 a + 24 b`. -/
theorem stats_counters_wrap :
    ∃ s1 s2 : Server,
      serve_all (fun _ => none)
        (List.replicate 56512728 ((22 : Int), ping_request ++ List.replicate 2026 0)
          ++ List.replicate 97612894
              ((30 : Int), bytes "GET /no-such-file HTTP/1.1\r\n\r\n" ++ List.replicate 2018 0))
        Server.init = Step.ok () s1 ∧
      serve (fun _ => none) 23 (bytes "GET /stats HTTP/1.1\r\n\r\n" ++ List.replicate 2025 0) s1
        = Step.ok () s2 ∧
      s2.sent = bytes ("HTTP/1.1 200 OK\r\nContent-Length: 108\r\n\r\n"
          ++ "Requests: 56512728\nHeader bytes: -2147483632\nBody bytes: 226050912\n"
          ++ "Errors: 97612894\nError bytes: -2147483628") := by
  have hrs : ∀ r ∈ (List.replicate 56512728
        (Answer.pong, (22 : Int), ping_request ++ List.replicate 2026 0)
      ++ List.replicate 97612894 (Answer.not_found, (30 : Int),
          bytes "GET /no-such-file HTTP/1.1\r\n\r\n" ++ List.replicate 2018 0)),
      answered (fun _ => none) r.1 r.2.1 r.2.2 := by
    intro r hr
    rcases List.mem_append.mp hr with h | h
    · rw [List.eq_of_mem_replicate h]
      exact ⟨by decide, by rw [List.length_append, List.length_replicate]; decide,
        List.prefix_append _ _⟩
    · rw [List.eq_of_mem_replicate h]
      exact ⟨by decide, by rw [List.length_append, List.length_replicate]; decide,
        bytes "no-such-file", bytes "\r\n" ++ List.replicate 2018 0, by rfl, by decide,
        by decide, by decide,
        List.mem_append_right _ (List.mem_replicate.mpr ⟨by decide, rfl⟩), rfl,
        by decide, by decide, by decide, by decide⟩
  have hfst : (List.replicate 56512728
        (Answer.pong, (22 : Int), ping_request ++ List.replicate 2026 0)
      ++ List.replicate 97612894 (Answer.not_found, (30 : Int),
          bytes "GET /no-such-file HTTP/1.1\r\n\r\n" ++ List.replicate 2018 0)).map Prod.fst
      = List.replicate 56512728 Answer.pong ++ List.replicate 97612894 Answer.not_found := by
    rw [List.map_append, List.map_replicate, List.map_replicate]
  have hsnd : (List.replicate 56512728
        (Answer.pong, (22 : Int), ping_request ++ List.replicate 2026 0)
      ++ List.replicate 97612894 (Answer.not_found, (30 : Int),
          bytes "GET /no-such-file HTTP/1.1\r\n\r\n" ++ List.replicate 2018 0)).map Prod.snd
      = List.replicate 56512728 ((22 : Int), ping_request ++ List.replicate 2026 0)
          ++ List.replicate 97612894
              ((30 : Int), bytes "GET /no-such-file HTTP/1.1\r\n\r\n" ++ List.replicate 2018 0) := by
    rw [List.map_append, List.map_replicate, List.map_replicate]
  obtain ⟨s1, s2, h1, h2, h3⟩ := serve_all_then_stats (fun _ => none) _ 23
    (bytes "GET /stats HTTP/1.1\r\n\r\n" ++ List.replicate 2025 0) 56512728 97612894 0 hrs
    (by rw [hfst, List.count_append, List.count_replicate_self, List.count_replicate]; rfl)
    (by rw [hfst, List.count_append, List.count_replicate_self, List.count_replicate]; rfl)
    (by rw [hfst, List.count_append, List.count_replicate, List.count_replicate]; rfl)
    (by decide) (by rw [List.length_append, List.length_replicate]; decide)
    ⟨bytes "\r\n" ++ List.replicate 2025 0, by rfl⟩
  rw [hsnd] at h1
  refine ⟨s1, s2, h1, h2, ?_⟩
  have e1 : wrap_int ((56512728 : Nat) : Int) = 56512728 := by decide
  have e2 : wrap_int (38 * ((56512728 : Nat) : Int)) = -2147483632 := by decide
  have e3 : wrap_int (4 * ((56512728 : Nat) : Int)) = 226050912 := by decide
  have e4 : wrap_int (((97612894 : Nat) : Int) + ((0 : Nat) : Int)) = 97612894 := by decide
  have e5 : wrap_int (22 * ((97612894 : Nat) : Int) + 24 * ((0 : Nat) : Int)) = -2147483628 := by
    decide
  have e6 : format stats_response_body [56512728, -2147483632, 226050912, 97612894, -2147483628]
      = bytes ("Requests: 56512728\nHeader bytes: -2147483632\nBody bytes: 226050912\n"
          ++ "Errors: 97612894\nError bytes: -2147483628") := by decide
  have e7 : (bytes ("Requests: 56512728\nHeader bytes: -2147483632\nBody bytes: 226050912\n"
          ++ "Errors: 97612894\nError bytes: -2147483628")).length = 108 := by rfl
  have e8 : format ok200_response [((108 : Nat) : Int)]
      = bytes "HTTP/1.1 200 OK\r\nContent-Length: 108\r\n\r\n" := by decide
  rw [h3, e1, e2, e3, e4, e5, e6, e7, e8]
  rfl

/-! ### Strings in an array -/

theorem strstr_first (needle : List Nat) (hne : needle ≠ []) (r : List Nat) :
    ∀ a : List Nat, (∀ c ∈ a, c ≠ 0) →
      (∀ i, i < a.length → ¬ needle <+: (a ++ needle ++ r).drop i) →
      strstr needle (a ++ needle ++ r) = some (some a.length) := by
  intro a
  induction a with
  | nil =>
    intro _ _
    obtain ⟨x, xs, rfl⟩ := List.exists_cons_of_ne_nil hne
    have h : (x :: xs).isPrefixOf (x :: (xs ++ r)) = true := by
      rw [List.isPrefixOf_iff_prefix]
      exact ⟨r, rfl⟩
    show strstr (x :: xs) (x :: (xs ++ r)) = _
    rw [strstr, if_pos h]
    rfl
  | cons c cs ih =>
    intro hnz hfirst
    have hc : c ≠ 0 := hnz c (List.mem_cons_self _ _)
    have h0 : ¬ needle.isPrefixOf (c :: (cs ++ needle ++ r)) = true := by
      intro h
      exact hfirst 0 (by simp) (List.isPrefixOf_iff_prefix.mp h)
    have ih' := ih (fun x hx => hnz x (List.mem_cons_of_mem _ hx))
      (fun i hi => by
        have := hfirst (i + 1) (by simpa using hi)
        simpa using this)
    show strstr needle (c :: (cs ++ needle ++ r)) = _
    rw [strstr, if_neg h0, if_neg hc, ih']
    rfl

theorem strlen_append (a r : List Nat) (hnz : ∀ c ∈ a, c ≠ 0) :
    strlen (a ++ 0 :: r) = some a.length := by
  induction a with
  | nil => simp [strlen]
  | cons c cs ih =>
    have hc : c ≠ 0 := hnz c (List.mem_cons_self _ _)
    simp [strlen, hc, ih (fun x hx => hnz x (List.mem_cons_of_mem _ hx))]

theorem handle_client_request_echo (fs : List Nat → Option (List Nat)) (len : Int)
    (request : List Nat) (s : Server) (hlen : 0 < len) (hbuf : 22 ≤ request.length)
    (hreq : echo_request <+: request) :
    handle_client_request fs len request s
      = (do handle_echo request; close_client : Exec Unit) s := by
  have h0 : len ≠ 0 := by omega
  have n1 : ¬ ping_request <+: request := by
    obtain ⟨t, rfl⟩ := hreq
    rintro ⟨u, hu⟩
    simp [echo_request, ping_request, bytes] at hu
  obtain ⟨c1, e1, m1⟩ := strncmp_ne ping_request (by decide) request
    (le_trans (by decide) hbuf) n1
  have e2 := strncmp_eq echo_request (by decide) request hreq
  simp [handle_client_request, h0, hlen, assert, defined, e1, m1, e2]

theorem handle_echo_ok (p tail : List Nat) (s : Server) (hnz : ∀ c ∈ p, c ≠ 0)
    (hsize : p.length ≤ 1024)
    (hfirst : ∀ i, i < 20 + p.length →
      ¬ crlfcrlf <+: (echo_request ++ p ++ crlfcrlf ++ tail).drop i)
    (hlock : s.stats_lock = false) :
    handle_echo (echo_request ++ p ++ crlfcrlf ++ tail) s
      = Step.ok ()
          { s with
            sent := s.sent ++ format ok200_response [(p.length : Int)] ++ p
            reqs := wrap_int (s.reqs + 1)
            head_bytes := wrap_int (s.head_bytes + (format ok200_response [(p.length : Int)]).length)
            body_bytes := wrap_int (s.body_bytes + p.length)
            stats_lock := false } := by
  have hlen20 : echo_request.length = 20 := by decide
  have h1 : strstr crlfcrlf (echo_request ++ p ++ crlfcrlf ++ tail)
      = some (some (20 + p.length)) := by
    have := strstr_first crlfcrlf (by decide) tail (echo_request ++ p)
      (by
        intro c hc
        rcases List.mem_append.mp hc with h | h
        · exact (by decide : ∀ c ∈ echo_request, c ≠ 0) c h
        · exact hnz c h)
      (by
        intro i hi
        rw [List.length_append, hlen20] at hi
        exact hfirst i hi)
    rw [this, List.length_append, hlen20]
  have h2 : (echo_request ++ p ++ crlfcrlf ++ tail).set (20 + p.length) 0
      = echo_request ++ (p ++ 0 :: 10 :: 13 :: 10 :: tail) := by
    have e : crlfcrlf = [13, 10, 13, 10] := by decide
    simp only [List.append_assoc]
    rw [List.set_append_right _ _ (by rw [hlen20]; omega), hlen20,
      List.set_append_right _ _ (by omega), e]
    simp
  have h3 : strstr crlf (echo_request ++ (p ++ 0 :: 10 :: 13 :: 10 :: tail))
      = some (some 18) := by
    have e : echo_request = [71, 69, 84, 32, 47, 101, 99, 104, 111, 32, 72, 84, 84, 80, 47, 49,
        46, 49, 13, 10] := by decide
    have e2 : crlf = [13, 10] := by decide
    rw [e, e2]
    simp [strstr]
  have h4 : 20 + p.length < (echo_request ++ p ++ crlfcrlf ++ tail).length := by
    simp only [List.length_append, hlen20]
    have : crlfcrlf.length = 4 := by decide
    omega
  have h5 : (echo_request ++ (p ++ 0 :: 10 :: 13 :: 10 :: tail)).drop 20
      = p ++ 0 :: 10 :: 13 :: 10 :: tail := List.drop_left' hlen20
  have h6 : strlen (p ++ 0 :: 10 :: 13 :: 10 :: tail) = some p.length :=
    strlen_append p _ hnz
  have h7 := send_request_formatted (p.length : Int) p p.length s
    (format_ok200_length p.length (by omega)) (le_refl _) (by omega) hlock
  rw [List.take_length] at h7
  simp only [handle_echo, bind_apply, h1, defined, exec_pure_apply, h4, if_true, h2, h3,
    assert, Option.isSome_some, Option.getD_some, h5, h6, hsize, List.take_left]
  exact h7

/-- A payload of more than 1024 bytes: `memcpy(body, start, body_size)` writes past
the end of `body`, an array of 1024 bytes; nothing has been sent. -/
theorem handle_echo_overflow (p tail : List Nat) (s : Server) (hnz : ∀ c ∈ p, c ≠ 0)
    (hsize : 1024 < p.length)
    (hfirst : ∀ i, i < 20 + p.length →
      ¬ crlfcrlf <+: (echo_request ++ p ++ crlfcrlf ++ tail).drop i) :
    handle_echo (echo_request ++ p ++ crlfcrlf ++ tail) s = Step.stop Stop.undefined s := by
  have hlen20 : echo_request.length = 20 := by decide
  have h1 : strstr crlfcrlf (echo_request ++ p ++ crlfcrlf ++ tail)
      = some (some (20 + p.length)) := by
    have := strstr_first crlfcrlf (by decide) tail (echo_request ++ p)
      (by
        intro c hc
        rcases List.mem_append.mp hc with h | h
        · exact (by decide : ∀ c ∈ echo_request, c ≠ 0) c h
        · exact hnz c h)
      (by
        intro i hi
        rw [List.length_append, hlen20] at hi
        exact hfirst i hi)
    rw [this, List.length_append, hlen20]
  have h2 : (echo_request ++ p ++ crlfcrlf ++ tail).set (20 + p.length) 0
      = echo_request ++ (p ++ 0 :: 10 :: 13 :: 10 :: tail) := by
    have e : crlfcrlf = [13, 10, 13, 10] := by decide
    simp only [List.append_assoc]
    rw [List.set_append_right _ _ (by rw [hlen20]; omega), hlen20,
      List.set_append_right _ _ (by omega), e]
    simp
  have h3 : strstr crlf (echo_request ++ (p ++ 0 :: 10 :: 13 :: 10 :: tail))
      = some (some 18) := by
    have e : echo_request = [71, 69, 84, 32, 47, 101, 99, 104, 111, 32, 72, 84, 84, 80, 47, 49,
        46, 49, 13, 10] := by decide
    have e2 : crlf = [13, 10] := by decide
    rw [e, e2]
    simp [strstr]
  have h4 : 20 + p.length < (echo_request ++ p ++ crlfcrlf ++ tail).length := by
    simp only [List.length_append, hlen20]
    have : crlfcrlf.length = 4 := by decide
    omega
  have h5 : (echo_request ++ (p ++ 0 :: 10 :: 13 :: 10 :: tail)).drop 20
      = p ++ 0 :: 10 :: 13 :: 10 :: tail := List.drop_left' hlen20
  have h6 : strlen (p ++ 0 :: 10 :: 13 :: 10 :: tail) = some p.length :=
    strlen_append p _ hnz
  have h7 : ¬ p.length ≤ 1024 := by omega
  simp only [handle_echo, bind_apply, h1, defined, exec_pure_apply, h4, if_true, h2, h3,
    assert, Option.isSome_some, Option.getD_some, h5, h6, h7, if_false, halt]

theorem echo_terminator_first (p tail : List Nat) (hne : p ≠ []) (hcr : ∀ c ∈ p, c ≠ 13) :
    ∀ i, i < 20 + p.length →
      ¬ crlfcrlf <+: (echo_request ++ p ++ crlfcrlf ++ tail).drop i := by
  intro i hi h
  have e : echo_request = [71, 69, 84, 32, 47, 101, 99, 104, 111, 32, 72, 84, 84, 80, 47, 49,
      46, 49, 13, 10] := by decide
  have e4 : crlfcrlf = [13, 10, 13, 10] := by decide
  by_cases h20 : i < 20
  · obtain ⟨x, xs, rfl⟩ := List.exists_cons_of_ne_nil hne
    have hx : x ≠ 13 := hcr x (List.mem_cons_self _ _)
    rw [e, e4] at h
    interval_cases i <;> simp [List.cons_prefix_cons] at h
    exact hx h.1.symm
  · have hlen20 : echo_request.length = 20 := by decide
    obtain ⟨j, rfl⟩ : ∃ j, i = 20 + j := ⟨i - 20, by omega⟩
    have hj : j < p.length := by omega
    rw [List.append_assoc, List.append_assoc, ← hlen20, List.drop_append,
      List.drop_append_of_le_length (le_of_lt hj), List.drop_eq_getElem_cons hj, e4,
      List.cons_append, List.cons_prefix_cons] at h
    exact hcr _ (List.getElem_mem hj) h.1.symm

/-- The echo handler on a payload that it takes whole: `p` has no NUL and at most
1024 bytes (the size of `body`), and the `\r\n\r\n` that follows it is the first
one of the request (so `p` is not empty, does not begin with `\r\n` and holds no
`\r\n\r\n`).  The request `GET /echo HTTP/1.1\r\n`, `p`, `\r\n\r\n` in the 2048
bytes of `request` is answered with `HTTP/1.1 200 OK\r\nContent-Length: <|p|>\r\n\r\n`
followed by exactly the bytes of `p`, and the socket is closed. -/
theorem echo_payload (fs : List Nat → Option (List Nat)) (len : Int) (p tail : List Nat)
    (s : Server) (hlen : 0 < len)
    (hbuf : (echo_request ++ p ++ crlfcrlf ++ tail).length = 2048)
    (hnz : ∀ c ∈ p, c ≠ 0) (hsize : p.length ≤ 1024)
    (hfirst : ∀ i, i < 20 + p.length →
      ¬ crlfcrlf <+: (echo_request ++ p ++ crlfcrlf ++ tail).drop i)
    (hlock : s.stats_lock = false) :
    ∃ s1 : Server,
      handle_client_request fs len (echo_request ++ p ++ crlfcrlf ++ tail) s = Step.ok () s1 ∧
      s1.sent = s.sent ++ bytes "HTTP/1.1 200 OK\r\nContent-Length: " ++ dec (p.length : Int)
        ++ bytes "\r\n\r\n" ++ p ∧
      s1.closed = true := by
  have hd := handle_client_request_echo fs len (echo_request ++ p ++ crlfcrlf ++ tail) s hlen
    (by omega) ⟨p ++ crlfcrlf ++ tail, by simp only [List.append_assoc]⟩
  have he := handle_echo_ok p tail s hnz hsize hfirst hlock
  rw [hd]
  simp only [bind_apply, he, close_client, modify_state]
  refine ⟨_, rfl, ?_, rfl⟩
  simp only [format_ok200, List.append_assoc]

theorem echo_payload_witness :
    ∃ s1 : Server,
      handle_client_request (fun _ => none) 35
        (echo_request ++ bytes "hello world" ++ crlfcrlf ++ List.replicate 2013 0) Server.init
        = Step.ok () s1 ∧
      s1.sent = Server.init.sent ++ bytes "HTTP/1.1 200 OK\r\nContent-Length: "
        ++ dec ((bytes "hello world").length : Int) ++ bytes "\r\n\r\n" ++ bytes "hello world" ∧
      s1.closed = true :=
  echo_payload (fun _ => none) 35 (bytes "hello world") (List.replicate 2013 0) Server.init
    (by decide) (by simp only [List.length_append, List.length_replicate]; decide)
    (by decide) (by decide)
    (echo_terminator_first (bytes "hello world") (List.replicate 2013 0) (by decide) (by decide))
    rfl

theorem echo_hello_world_text :
    Server.init.sent ++ bytes "HTTP/1.1 200 OK\r\nContent-Length: "
        ++ dec ((bytes "hello world").length : Int) ++ bytes "\r\n\r\n" ++ bytes "hello world"
      = bytes "HTTP/1.1 200 OK\r\nContent-Length: 11\r\n\r\nhello world" := by
  decide

theorem handle_echo_empty (tail : List Nat) (s : Server) :
    handle_echo (echo_request ++ crlfcrlf ++ tail) s = Step.stop Stop.abort s := by
  have e : echo_request = [71, 69, 84, 32, 47, 101, 99, 104, 111, 32, 72, 84, 84, 80, 47, 49,
      46, 49, 13, 10] := by decide
  have e4 : crlfcrlf = [13, 10, 13, 10] := by decide
  have e2 : crlf = [13, 10] := by decide
  have h1 : strstr [13, 10, 13, 10] ([71, 69, 84, 32, 47, 101, 99, 104, 111, 32, 72, 84, 84, 80,
      47, 49, 46, 49, 13, 10] ++ [13, 10, 13, 10] ++ tail) = some (some 18) := by
    simp [strstr]
  have h2 : strstr [13, 10] ([71, 69, 84, 32, 47, 101, 99, 104, 111, 32, 72, 84, 84, 80,
      47, 49, 46, 49, 0, 10, 13, 10, 13, 10] ++ tail) = some none := by
    simp [strstr]
  rw [e, e4]
  simp only [handle_echo, bind_apply, h1, defined, exec_pure_apply, e4, e2]
  simp only [List.cons_append, List.nil_append] at h2
  simp [h2, assert, defined]

/-- C5 (echo), the code fails the claim at the empty payload `p`: the request is
`GET /echo HTTP/1.1\r\n` followed by `\r\n\r\n` (in the 2048 bytes of `request`,
the rest zero).  `strstr` finds the terminator at offset 18, the NUL written there
cuts the request line short of its `\r\n`, the second `strstr` returns NULL and
`assert(start != NULL)` fails: the process is aborted with nothing sent, where the
claim has the response `HTTP/1.1 200 OK\r\nContent-Length: 0\r\n\r\n` with an
empty body. -/
theorem echo_empty_payload_aborts :
    handle_client_request (fun _ => none) 24
        (echo_request ++ [] ++ crlfcrlf ++ List.replicate 2024 0) Server.init
      = Step.stop Stop.abort Server.init := by
  rw [handle_client_request_echo (fun _ => none) 24 _ Server.init (by decide)
    (by simp only [List.length_append, List.length_replicate]; decide)
    ⟨crlfcrlf ++ List.replicate 2024 0, by simp only [List.append_nil, List.append_assoc]⟩]
  simp only [bind_apply, List.append_nil, handle_echo_empty]

/-- A payload of 1025 letters `a` is not echoed: the copy into `body` leaves the
array. -/
theorem echo_long_payload_undefined :
    handle_client_request (fun _ => none) 1049
        (echo_request ++ List.replicate 1025 97 ++ crlfcrlf ++ List.replicate 999 0) Server.init
      = Step.stop Stop.undefined Server.init := by
  rw [handle_client_request_echo (fun _ => none) 1049 _ Server.init (by decide)
    (by simp only [List.length_append, List.length_replicate]; decide)
    ⟨List.replicate 1025 97 ++ crlfcrlf ++ List.replicate 999 0, by
      simp only [List.append_assoc]⟩]
  simp only [bind_apply]
  rw [handle_echo_overflow (List.replicate 1025 97) (List.replicate 999 0) Server.init
    (fun c hc => by rw [List.eq_of_mem_replicate hc]; decide)
    (by rw [List.length_replicate]; decide)
    (echo_terminator_first (List.replicate 1025 97) (List.replicate 999 0)
      (by rw [List.replicate_succ]; exact List.cons_ne_nil _ _)
      (fun c hc => by rw [List.eq_of_mem_replicate hc]; decide))]

/-! ### The file handler -/

theorem take_append_drop_length (l : List Nat) (n : Nat) :
    l.take n ++ l.drop (l.take n).length = l := by
  rw [List.length_take]
  by_cases h : n ≤ l.length
  · rw [Nat.min_eq_left h, List.take_append_drop]
  · have h' : l.length ≤ n := by omega
    rw [Nat.min_eq_right h', List.take_of_length_le h', List.drop_length, List.append_nil]

theorem send_file_ok (content : List Nat) (hsize : content.length < 2147483648) (fuel : Nat) :
    ∀ (offset : Nat) (s : Server), offset ≤ content.length → content.length - offset < fuel →
      s.stats_lock = false → fits_int s.body_bytes →
      send_file fuel content offset (content.length : Int) (offset : Int) s
        = Step.ok ()
            { s with
              sent := s.sent ++ content.drop offset
              body_bytes := wrap_int (s.body_bytes + ((content.length - offset : Nat) : Int))
              stats_lock := false } := by
  induction fuel with
  | zero => intro offset s _ h _ _; omega
  | succ fuel ih =>
    intro offset s hle hfuel hlock hfit
    obtain ⟨w, ws, wl, r, hby, bby, e, eb, sl, sn, cl⟩ := s
    simp only at hlock hfit
    subst hlock
    by_cases hlt : offset < content.length
    · have hlt' : (offset : Int) < (content.length : Int) := by omega
      have hk : 0 < ((content.drop offset).take 1024).length := by
        rw [List.length_take, List.length_drop]; omega
      have hk2 : ((content.drop offset).take 1024).length ≤ content.length - offset := by
        rw [List.length_take, List.length_drop]; omega
      have hw : wrap_int ((offset : Int) + (((content.drop offset).take 1024).length : Int))
          = (offset : Int) + (((content.drop offset).take 1024).length : Int) :=
        wrap_int_of_range _ (by omega) (by omega)
      have h1 := send_fully_ok ((content.drop offset).take 1024)
        ((content.drop offset).take 1024).length (le_refl _)
        ⟨w, ws, wl, r, hby, bby, e, eb, false, sn, cl⟩
      rw [List.take_length] at h1
      have h2 := ih (offset + ((content.drop offset).take 1024).length)
        ⟨w, ws, wl, r, hby, wrap_int (bby + ((content.drop offset).take 1024).length), e, eb,
          false, sn ++ (content.drop offset).take 1024, cl⟩ (by omega) (by omega) rfl
        (fits_int_wrap _)
      simp only [Nat.cast_add] at h2
      simp only [send_file, hlt', if_true, bind_apply, h1, send_rest, ne_eq, not_true_eq_false,
        if_false, exec_pure_apply, assert, decide_True, pthread_mutex_lock, Mutex.held,
        Bool.false_eq_true, Mutex.set, modify_state, pthread_mutex_unlock, hw, h2]
      have hb : wrap_int (wrap_int (bby + (((content.drop offset).take 1024).length : Int))
            + ((content.length - (offset + ((content.drop offset).take 1024).length) : Nat) : Int))
          = wrap_int (bby + ((content.length - offset : Nat) : Int)) := by
        rw [wrap_int_add_wrap]
        have e0 : bby + (((content.drop offset).take 1024).length : Int)
            + ((content.length - (offset + ((content.drop offset).take 1024).length) : Nat) : Int)
            = bby + ((content.length - offset : Nat) : Int) := by omega
        rw [e0]
      have hsn : sn ++ (content.drop offset).take 1024
            ++ content.drop (offset + ((content.drop offset).take 1024).length)
          = sn ++ content.drop offset := by
        rw [List.append_assoc, ← List.drop_drop,
          take_append_drop_length (content.drop offset) 1024]
      rw [hb, hsn]
    · have heq : offset = content.length := by omega
      have hlt' : ¬ ((offset : Int) < (content.length : Int)) := by omega
      have hw : wrap_int bby = bby := wrap_int_of_range _ hfit.1 (by have := hfit.2; omega)
      simp only [send_file, hlt', if_false, exec_pure_apply]
      subst heq
      simp [hw]

theorem handle_file_deadlock (fs : List Nat → Option (List Nat)) (path rest content : List Nat)
    (s : Server) (hne : path ≠ []) (hpath : ∀ c ∈ path, c ≠ 0 ∧ isspace c = false)
    (hlen : path.length < 128) (hrest : 0 ∈ rest) (hfs : fs path = some content)
    (hsize : content.length < 2 ^ 31) (hlock : s.stats_lock = false)
    (hfit : fits_int s.body_bytes) :
    handle_file fs (bytes "GET /" ++ path ++ bytes " HTTP/1.1\r\n" ++ rest) s
      = Step.stop Stop.deadlock
          { s with
            sent := s.sent ++ format ok200_response [(content.length : Int)] ++ content
            reqs := wrap_int (s.reqs + 1)
            head_bytes :=
              wrap_int (s.head_bytes + (format ok200_response [(content.length : Int)]).length)
            body_bytes := wrap_int (s.body_bytes + content.length)
            stats_lock := true } := by
  have hl : path.length ≤ 127 := by omega
  have hs := sscanf_file_request path rest hne hpath hrest
  simp only [List.append_assoc] at hs
  obtain ⟨w, ws, wl, r, hby, bby, e, eb, sl, sn, cl⟩ := s
  simp only at hlock hfit
  subst hlock
  have hfmt := format_ok200_length content.length hsize
  have hw : wrap_int (content.length : Int) = (content.length : Int) :=
    wrap_int_cast _ (by omega)
  have h1 := send_fully_ok (format ok200_response [(content.length : Int)] ++ [0])
    (format ok200_response [(content.length : Int)]).length (by simp)
    ⟨w, ws, wl, r, hby, bby, e, eb, false, sn, cl⟩
  simp only [List.take_left'] at h1
  have h2 := send_file_ok content (by omega) (content.length + 1) 0
    ⟨w, ws, wl, r, wrap_int (hby + (format ok200_response [(content.length : Int)]).length), bby,
      e, eb, false, sn ++ format ok200_response [(content.length : Int)], cl⟩
    (Nat.zero_le _) (by omega) rfl hfit
  simp only [Nat.cast_zero, List.drop_zero, Nat.sub_zero] at h2
  simp [handle_file, hs, defined, hl, assert, hfs, snprintf, hw, List.take_of_length_le hfmt, h1,
    pthread_mutex_lock, Mutex.held, Mutex.set, modify_state, pthread_mutex_unlock, h2]

/-! ### Tokens of a request -/

theorem strspn_run (delim g : List Nat) (x : Nat) (r : List Nat) (hg : ∀ c ∈ g, c ∈ delim)
    (hx : x ∉ delim) : strspn delim (g ++ x :: r) = g.length := by
  induction g with
  | nil => simp [strspn, hx]
  | cons c cs ih =>
    have hc : c ∈ delim := hg c (List.mem_cons_self _ _)
    simp [strspn, hc, ih (fun y hy => hg y (List.mem_cons_of_mem _ hy))]

theorem strcspn_run (delim h : List Nat) (x : Nat) (r : List Nat)
    (hh : ∀ c ∈ h, c ≠ 0 ∧ c ∉ delim) (hx : x = 0 ∨ x ∈ delim) :
    strcspn delim (h ++ x :: r) = h.length := by
  induction h with
  | nil => simp [strcspn, hx]
  | cons c cs ih =>
    have hc := hh c (List.mem_cons_self _ _)
    simp [strcspn, hc.1, hc.2, ih (fun y hy => hh y (List.mem_cons_of_mem _ hy))]

theorem header_line_delim (h : List Nat) (hh : header_line h) :
    ∀ c ∈ h, c ≠ 0 ∧ c ∉ crlf := by
  intro c hc
  obtain ⟨h0, h13, h10⟩ := hh.2 c hc
  refine ⟨h0, ?_⟩
  have e : crlf = [13, 10] := by decide
  rw [e]
  simp [h13, h10]

/-- `strtok_r` from a position followed by delimiters `g` and then a line. -/
theorem strtok_r_line (d g h y : List Nat) (hg : ∀ c ∈ g, c ∈ crlf) (hh : header_line h) :
    strtok_r (d ++ g ++ h ++ 13 :: 10 :: y) d.length crlf
      = some (d ++ g ++ h ++ 0 :: 10 :: y, some (d.length + g.length),
          d.length + g.length + h.length + 1) := by
  obtain ⟨x, xs, rfl⟩ := List.exists_cons_of_ne_nil hh.1
  have hd := header_line_delim (x :: xs) hh
  have hx := hd x (List.mem_cons_self _ _)
  have h1 : strspn crlf ((d ++ g ++ (x :: xs) ++ 13 :: 10 :: y).drop d.length) = g.length := by
    rw [List.append_assoc, List.append_assoc, List.drop_left, List.cons_append]
    exact strspn_run crlf g x _ hg hx.2
  have h2 : (d ++ g ++ (x :: xs) ++ 13 :: 10 :: y)[d.length + g.length]? = some x := by
    rw [List.append_assoc (d ++ g), ← List.length_append,
      List.getElem?_append_right (le_refl _)]
    simp
  have h3 : strcspn crlf ((d ++ g ++ (x :: xs) ++ 13 :: 10 :: y).drop (d.length + g.length))
      = (x :: xs).length := by
    rw [List.append_assoc (d ++ g), ← List.length_append, List.drop_left]
    exact strcspn_run crlf (x :: xs) 13 _ hd (Or.inr (by decide))
  have h4 : (d ++ g ++ (x :: xs) ++ 13 :: 10 :: y)[d.length + g.length + (x :: xs).length]?
      = some 13 := by
    rw [← List.length_append, ← List.length_append,
      List.getElem?_append_right (le_refl _)]
    simp
  have h5 : (d ++ g ++ (x :: xs) ++ 13 :: 10 :: y).set
      (d.length + g.length + (x :: xs).length) 0 = d ++ g ++ (x :: xs) ++ 0 :: 10 :: y := by
    rw [← List.length_append, ← List.length_append, List.set_append_right _ _ (le_refl _)]
    simp
  simp only [strtok_r, h1, h2, hx.1, if_false, h3, h4, h5]
  simp

/-- `strtok_r` from a position followed by delimiters `g` and then a NUL. -/
theorem strtok_r_end (d g y : List Nat) (hg : ∀ c ∈ g, c ∈ crlf) :
    strtok_r (d ++ g ++ 0 :: y) d.length crlf = some (d ++ g ++ 0 :: y, none, d.length + g.length) := by
  have h1 : strspn crlf ((d ++ g ++ 0 :: y).drop d.length) = g.length := by
    rw [List.append_assoc, List.drop_left]
    exact strspn_run crlf g 0 _ hg (by decide)
  have h2 : (d ++ g ++ 0 :: y)[d.length + g.length]? = some 0 := by
    rw [← List.length_append, List.getElem?_append_right (le_refl _)]
    simp
  simp only [strtok_r, h1, h2, if_true]

theorem sscanf_go_ret_zero (ds : List Directive) :
    ∀ (inp : List Nat) (n : Nat) (ints : List Int) (strs : List (List Nat)),
      (sscanf_go ds inp n ints strs).ret = 0 →
      n = 0 ∧ (sscanf_go ds inp n ints strs).ints = ints := by
  induction ds with
  | nil =>
    intro inp n ints strs h
    have e : sscanf_go [] inp n ints strs = ⟨(n : Int), ints, strs⟩ := by simp [sscanf_go]
    rw [e] at h ⊢
    exact ⟨by simpa using h, rfl⟩
  | cons d ds ih =>
    intro inp n ints strs h
    cases d with
    | white =>
      rw [sscanf_go_white] at h ⊢
      exact ih _ _ _ _ h
    | lit c =>
      cases inp with
      | nil =>
        have e : sscanf_go (Directive.lit c :: ds) [] n ints strs = input_failure n ints strs := by
          simp [sscanf_go]
        rw [e] at h
        simp only [input_failure] at h
        split at h <;> omega
      | cons x rest =>
        by_cases hx : x = c
        · subst hx
          rw [sscanf_go_lit] at h ⊢
          exact ih _ _ _ _ h
        · have e : sscanf_go (Directive.lit c :: ds) (x :: rest) n ints strs
              = ⟨(n : Int), ints, strs⟩ := by simp [sscanf_go, hx]
          rw [e] at h ⊢
          exact ⟨by simpa using h, rfl⟩
    | int =>
      cases hdw : inp.dropWhile isspace with
      | nil =>
        have e : sscanf_go (Directive.int :: ds) inp n ints strs = input_failure n ints strs := by
          simp [sscanf_go, hdw]
        rw [e] at h
        simp only [input_failure] at h
        split at h <;> omega
      | cons x rest =>
        cases hsi : scan_int (x :: rest) with
        | none =>
          have e : sscanf_go (Directive.int :: ds) inp n ints strs
              = ⟨(n : Int), ints, strs⟩ := by simp [sscanf_go, hdw, hsi]
          rw [e] at h ⊢
          exact ⟨by simpa using h, rfl⟩
        | some r =>
          have e : sscanf_go (Directive.int :: ds) inp n ints strs
              = sscanf_go ds r.2 (n + 1) (ints ++ [r.1]) strs := by
            simp [sscanf_go, hdw, hsi]
          rw [e] at h
          have := (ih _ _ _ _ h).1
          omega
    | str =>
      cases hdw : inp.dropWhile isspace with
      | nil =>
        have e : sscanf_go (Directive.str :: ds) inp n ints strs = input_failure n ints strs := by
          simp [sscanf_go, hdw]
        rw [e] at h
        simp only [input_failure] at h
        split at h <;> omega
      | cons x rest =>
        have e : sscanf_go (Directive.str :: ds) inp n ints strs
            = sscanf_go ds ((x :: rest).dropWhile (fun c => !isspace c)) (n + 1) ints
                (strs ++ [(x :: rest).takeWhile (fun c => !isspace c)]) := by
          simp [sscanf_go, hdw]
        rw [e] at h
        have := (ih _ _ _ _ h).1
        omega

theorem sscanf_token (d h z fmt : List Nat) (hh : ∀ c ∈ h, c ≠ 0) :
    sscanf ((d ++ h ++ 0 :: z).drop d.length) fmt
      = some (sscanf_go (parse_format fmt) h 0 [] []) := by
  rw [List.append_assoc, List.drop_left, sscanf, cstr_append h _ hh]
  simp [cstr]

theorem header_block_append (ls ms : List (List Nat)) :
    header_block (ls ++ ms) = header_block ls ++ header_block ms := by
  induction ls with
  | nil => rfl
  | cons h t ih => simp [header_block, ih]

theorem tokenized_length (ls : List (List Nat)) :
    (tokenized ls).length = (header_block ls).length := by
  induction ls with
  | nil => rfl
  | cons h t ih => simp [tokenized, header_block, ih]

theorem length_le_header_block (ls : List (List Nat)) :
    ls.length ≤ (header_block ls).length := by
  induction ls with
  | nil => simp
  | cons h t ih => simp [header_block]; omega

/-- One iteration of the loop of `handle_write` on a line that is not taken for
the header, followed by another line: the next line becomes the token. -/
theorem scan_content_length_skip (fuel : Nat) (d h h1 z : List Nat) (length : Int) (s : Server)
    (hh : header_line h) (hnc : not_content_length h) (hh1 : header_line h1) :
    scan_content_length (fuel + 1) (d ++ h ++ 0 :: 10 :: (h1 ++ 13 :: 10 :: z))
        (some d.length) (d.length + h.length + 1) length s
      = scan_content_length fuel (d ++ h ++ 0 :: 10 :: (h1 ++ 0 :: 10 :: z))
        (some (d.length + h.length + 2)) (d.length + h.length + 2 + h1.length + 1) length s := by
  have h0 : ∀ c ∈ h, c ≠ 0 := fun c hc => (hh.2 c hc).1
  have hs := sscanf_token d h (10 :: (h1 ++ 13 :: 10 :: z)) content_len_header h0
  obtain ⟨_, hints⟩ := sscanf_go_ret_zero _ _ _ _ _ hnc
  have ht := strtok_r_line (d ++ h ++ [0]) [10] h1 z (by decide) hh1
  have e1 : d ++ h ++ [0] ++ [10] ++ h1 ++ 13 :: 10 :: z
      = d ++ h ++ 0 :: 10 :: (h1 ++ 13 :: 10 :: z) := by simp
  have e2 : d ++ h ++ [0] ++ [10] ++ h1 ++ 0 :: 10 :: z
      = d ++ h ++ 0 :: 10 :: (h1 ++ 0 :: 10 :: z) := by simp
  have e3 : (d ++ h ++ [0]).length = d.length + h.length + 1 := by
    simp only [List.length_append, List.length_singleton]
  rw [e1, e2, e3] at ht
  simp only [List.length_singleton] at ht
  unfold not_content_length at hnc
  simp only [scan_content_length, bind_apply, hs, defined, exec_pure_apply, hints, hnc, ht,
    ne_eq, not_true_eq_false, if_false]

/-- The loop of `handle_write` over lines that are not taken for the header: the
line after them becomes the token. -/
theorem scan_content_length_chain (cl y : List Nat) (hcl : header_line cl) :
    ∀ (ls : List (List Nat)) (d : List Nat) (fuel : Nat) (length : Int) (s : Server),
      (∀ h ∈ ls, header_line h ∧ not_content_length h) →
      scan_content_length (fuel + ls.length) (d ++ token_layout (ls ++ [cl]) y) (some d.length)
          (d.length + ((ls ++ [cl]).headD []).length + 1) length s
        = scan_content_length fuel (d ++ tokenized ls ++ (cl ++ 0 :: 10 :: y))
          (some (d.length + (tokenized ls).length))
          (d.length + (tokenized ls).length + cl.length + 1) length s := by
  intro ls
  induction ls with
  | nil =>
    intro d fuel length s _
    simp [token_layout, tokenized, header_block]
  | cons h t ih =>
    intro d fuel length s hls
    obtain ⟨hh, hnc⟩ := hls h (List.mem_cons_self _ _)
    have ht : ∀ x ∈ t, header_line x ∧ not_content_length x :=
      fun x hx => hls x (List.mem_cons_of_mem _ hx)
    obtain ⟨h1, t1, e⟩ : ∃ h1 t1, t ++ [cl] = h1 :: t1 := by
      cases t with
      | nil => exact ⟨cl, [], rfl⟩
      | cons a b => exact ⟨a, b ++ [cl], rfl⟩
    have hh1 : header_line h1 := by
      have hm : h1 ∈ t ++ [cl] := by rw [e]; exact List.mem_cons_self _ _
      rcases List.mem_append.mp hm with hm | hm
      · exact (ht h1 hm).1
      · rw [List.mem_singleton.mp hm]; exact hcl
    have hstep := scan_content_length_skip (fuel + t.length) d h h1 (header_block t1 ++ y) length
      s hh hnc hh1
    have hih := ih (d ++ h ++ [0, 10]) fuel length s ht
    rw [e] at hih
    simp only [token_layout, List.headD_cons, List.length_append, List.length_cons,
      List.length_nil, List.append_assoc, List.cons_append, List.nil_append] at hih
    simp only [List.cons_append, e, token_layout, header_block, List.headD_cons,
      List.length_cons, tokenized, List.length_append, List.append_assoc]
    simp only [List.append_assoc, List.cons_append] at hstep
    have e1 : fuel + (t.length + 1) = fuel + t.length + 1 := by omega
    rw [e1, hstep]
    have e2 : d.length + h.length + 2 = d.length + (h.length + (0 + 1 + 1)) := by omega
    have e3 : d.length + (h.length + ((tokenized t).length + 1 + 1))
        = d.length + (h.length + (0 + 1 + 1)) + (tokenized t).length := by omega
    rw [e2, hih, e3]

theorem strstr_skip (h r : List Nat) (hh : ∀ c ∈ h, c ≠ 0 ∧ c ≠ 13) :
    strstr crlfcrlf (h ++ r) = (strstr crlfcrlf r).map (Option.map (· + h.length)) := by
  induction h with
  | nil => simp
  | cons c cs ih =>
    obtain ⟨h0, h13⟩ := hh c (List.mem_cons_self _ _)
    have e4 : crlfcrlf = [13, 10, 13, 10] := by decide
    have hp : ¬ crlfcrlf.isPrefixOf (c :: (cs ++ r)) = true := by
      rw [e4]; simp [Ne.symm h13]
    rw [List.cons_append, strstr, if_neg hp, if_neg h0,
      ih (fun x hx => hh x (List.mem_cons_of_mem _ hx))]
    cases strstr crlfcrlf r with
    | none => rfl
    | some o =>
      cases o with
      | none => rfl
      | some i => simp; omega

theorem strstr_block (rest : List Nat) :
    ∀ (h : List Nat) (ls : List (List Nat)), (∀ x ∈ h :: ls, header_line x) →
      strstr crlfcrlf (header_block (h :: ls) ++ 13 :: 10 :: rest)
        = some (some ((header_block (h :: ls)).length - 2)) := by
  intro h ls
  induction ls generalizing h with
  | nil =>
    intro hl
    have hh := hl h (List.mem_cons_self _ _)
    have h1 : strstr crlfcrlf (13 :: 10 :: 13 :: 10 :: rest) = some (some 0) := by
      have e4 : crlfcrlf = [13, 10, 13, 10] := by decide
      rw [e4]; simp [strstr]
    simp only [header_block, List.append_assoc, List.cons_append, List.nil_append]
    rw [strstr_skip h _ (fun c hc => ⟨(hh.2 c hc).1, (hh.2 c hc).2.1⟩), h1]
    simp
  | cons h1 t ih =>
    intro hl
    have hh := hl h (List.mem_cons_self _ _)
    have hh1 := hl h1 (List.mem_cons_of_mem _ (List.mem_cons_self _ _))
    have ih' := ih h1 (fun x hx => hl x (List.mem_cons_of_mem _ hx))
    obtain ⟨x, xs, rfl⟩ := List.exists_cons_of_ne_nil hh1.1
    have hx := hh1.2 x (List.mem_cons_self _ _)
    have e4 : crlfcrlf = [13, 10, 13, 10] := by decide
    have hlen : 2 ≤ (header_block ((x :: xs) :: t)).length := by
      simp [header_block]; omega
    have h2 : strstr crlfcrlf (13 :: 10 :: (header_block ((x :: xs) :: t) ++ 13 :: 10 :: rest))
        = some (some ((header_block ((x :: xs) :: t)).length - 2 + 2)) := by
      have hp1 : ¬ crlfcrlf.isPrefixOf
          (13 :: 10 :: (header_block ((x :: xs) :: t) ++ 13 :: 10 :: rest)) = true := by
        rw [e4]; simp [header_block, Ne.symm hx.2.1]
      have hp2 : ¬ crlfcrlf.isPrefixOf
          (10 :: (header_block ((x :: xs) :: t) ++ 13 :: 10 :: rest)) = true := by
        rw [e4]; simp
      rw [strstr, if_neg hp1, if_neg (by decide), strstr, if_neg hp2, if_neg (by decide), ih']
      rfl
    rw [header_block, List.append_assoc, List.cons_append, List.cons_append,
      strstr_skip h _ (fun c hc => ⟨(hh.2 c hc).1, (hh.2 c hc).2.1⟩), h2]
    simp only [Option.map_some', List.length_append, List.length_cons]
    congr 2
    omega

/-! ### Decimal numbers -/

theorem dec_digits_isdigit (fuel : Nat) :
    ∀ (n : Nat) (acc : List Nat), (∀ c ∈ acc, isdigit c = true) →
      ∀ c ∈ dec_digits fuel n acc, isdigit c = true := by
  induction fuel with
  | zero => intro n acc hacc; simpa [dec_digits] using hacc
  | succ fuel ih =>
    intro n acc hacc
    by_cases h10 : n < 10
    · simp only [dec_digits, h10, if_true]
      intro c hc
      rcases List.mem_cons.mp hc with rfl | hc
      · simp [isdigit]; omega
      · exact hacc c hc
    · simp only [dec_digits, h10, if_false]
      apply ih
      intro c hc
      rcases List.mem_cons.mp hc with rfl | hc
      · simp [isdigit]; omega
      · exact hacc c hc

theorem dec_digits_ne_nil (fuel : Nat) :
    ∀ (n : Nat) (acc : List Nat), n < fuel → dec_digits fuel n acc ≠ [] := by
  induction fuel with
  | zero => intro n acc h; omega
  | succ fuel ih =>
    intro n acc h
    by_cases h10 : n < 10
    · simp [dec_digits, h10]
    · simp only [dec_digits, h10, if_false]
      exact ih _ _ (by omega)

theorem scan_digits_dec_digits (fuel : Nat) :
    ∀ (n : Nat) (acc : List Nat), n < fuel →
      scan_digits (dec_digits fuel n acc) 0 = scan_digits acc n := by
  induction fuel with
  | zero => intro n acc h; omega
  | succ fuel ih =>
    intro n acc h
    by_cases h10 : n < 10
    · have hd : isdigit (48 + n) = true := by simp [isdigit]; omega
      simp [dec_digits, h10, scan_digits, hd]
    · have hd : isdigit (48 + n % 10) = true := by simp [isdigit]; omega
      simp only [dec_digits, h10, if_false]
      rw [ih _ _ (by omega)]
      simp only [scan_digits, hd, if_true]
      congr 1
      omega

theorem scan_int_dec (x : Int) : scan_int (dec x) = some (store_int x, []) := by
  have hne := dec_digits_ne_nil (x.natAbs + 1) x.natAbs [] (by omega)
  have hdig := dec_digits_isdigit (x.natAbs + 1) x.natAbs [] (by simp)
  have hscan := scan_digits_dec_digits (x.natAbs + 1) x.natAbs [] (by omega)
  obtain ⟨d, ds, e⟩ := List.exists_cons_of_ne_nil hne
  have hd : isdigit d = true := hdig d (by rw [e]; exact List.mem_cons_self _ _)
  have hd45 : d ≠ 45 := by
    intro h; rw [h] at hd; exact absurd hd (by decide)
  have hd43 : d ≠ 43 := by
    intro h; rw [h] at hd; exact absurd hd (by decide)
  rw [e] at hscan
  by_cases hx : x < 0
  · have hx1 : -((x.natAbs : Nat) : Int) = x := by omega
    simp only [dec, hx, if_true, dec_nat, e, scan_int, hd, hscan]
    simp only [scan_digits, hx1]
  · have hx1 : ((x.natAbs : Nat) : Int) = x := by omega
    simp only [dec, hx, if_false, dec_nat, e, scan_int, hd45, hd43, hd, hscan, if_true]
    simp only [scan_digits, hx1]

theorem dec_chars (x : Int) : dec x ≠ [] ∧ ∀ c ∈ dec x, c = 45 ∨ isdigit c = true := by
  have hne := dec_digits_ne_nil (x.natAbs + 1) x.natAbs [] (by omega)
  have hdig := dec_digits_isdigit (x.natAbs + 1) x.natAbs [] (by simp)
  by_cases hx : x < 0
  · simp only [dec, hx, if_true, dec_nat]
    refine ⟨by simp, ?_⟩
    intro c hc
    rcases List.mem_cons.mp hc with rfl | hc
    · exact Or.inl rfl
    · exact Or.inr (hdig c hc)
  · simp only [dec, hx, if_false, dec_nat]
    exact ⟨hne, fun c hc => Or.inr (hdig c hc)⟩

theorem header_line_content_length (x : Int) : header_line (content_length_line x) := by
  refine ⟨by simp [content_length_line, bytes], ?_⟩
  intro c hc
  rcases List.mem_append.mp hc with hc | hc
  · exact (by decide : ∀ c ∈ bytes "Content-Length: ", c ≠ 0 ∧ c ≠ 13 ∧ c ≠ 10) c hc
  · rcases (dec_chars x).2 c hc with rfl | hd
    · decide
    · simp only [isdigit, Bool.and_eq_true, decide_eq_true_eq] at hd
      omega

theorem sscanf_go_content_length (x : Int) :
    sscanf_go (parse_format content_len_header) (content_length_line x) 0 [] []
      = ⟨1, [store_int x], []⟩ := by
  have hf : parse_format content_len_header =
      [Directive.lit 67, Directive.lit 111, Directive.lit 110, Directive.lit 116,
       Directive.lit 101, Directive.lit 110, Directive.lit 116, Directive.lit 45,
       Directive.lit 76, Directive.lit 101, Directive.lit 110, Directive.lit 103,
       Directive.lit 116, Directive.lit 104, Directive.lit 58, Directive.white,
       Directive.int] := by decide
  have hb : bytes "Content-Length: "
      = [67, 111, 110, 116, 101, 110, 116, 45, 76, 101, 110, 103, 116, 104, 58, 32] := by decide
  obtain ⟨hne, hch⟩ := dec_chars x
  obtain ⟨d, ds, e⟩ := List.exists_cons_of_ne_nil hne
  have hd : isspace d = false := by
    rcases hch d (by rw [e]; exact List.mem_cons_self _ _) with rfl | hd
    · decide
    · simp only [isdigit, Bool.and_eq_true, decide_eq_true_eq] at hd
      simp [isspace]; omega
  have h32 : isspace 32 = true := by decide
  have hsi := scan_int_dec x
  rw [e] at hsi
  rw [hf, content_length_line, hb, e]
  simp only [List.cons_append, List.nil_append, sscanf_go_lit, sscanf_go_white]
  rw [List.dropWhile_cons_of_pos h32, List.dropWhile_cons_of_neg (by simp [hd])]
  simp only [sscanf_go]
  rw [List.dropWhile_cons_of_neg (by simp [hd])]
  simp only [hsi]
  simp

/-- The iteration of the loop of `handle_write` on a `Content-Length` line. -/
theorem scan_content_length_found (fuel : Nat) (d z : List Nat) (x length : Int) (sp : Nat)
    (s : Server) :
    scan_content_length (fuel + 1) (d ++ (content_length_line x ++ 0 :: z)) (some d.length) sp
        length s
      = Step.ok (store_int x, d ++ (content_length_line x ++ 0 :: z)) s := by
  have h0 : ∀ c ∈ content_length_line x, c ≠ 0 :=
    fun c hc => ((header_line_content_length x).2 c hc).1
  have hs := sscanf_token d (content_length_line x) z content_len_header h0
  rw [List.append_assoc] at hs
  simp only [scan_content_length, bind_apply, hs, defined, exec_pure_apply,
    sscanf_go_content_length]
  simp

theorem handle_read_ok (s : Server) (m : Nat) (hm : s.written_size = m) (hcap : m ≤ 1024)
    (hlen : m ≤ s.written.length) (hw : s.write_lock = false) (hlock : s.stats_lock = false) :
    handle_read s
      = Step.ok ()
          { s with
            sent := s.sent ++ format ok200_response [(m : Int)] ++ s.written.take m
            reqs := wrap_int (s.reqs + 1)
            head_bytes := wrap_int (s.head_bytes + (format ok200_response [(m : Int)]).length)
            body_bytes := wrap_int (s.body_bytes + m)
            write_lock := false
            stats_lock := false } := by
  obtain ⟨w, ws, wl, r, hby, bby, e, eb, sl, sn, cl⟩ := s
  simp only at hm hlen hw hlock
  subst hm hw hlock
  have h1 := send_request_formatted (m : Int) (w.take m) m
    ⟨w, m, false, r, hby, bby, e, eb, false, sn, cl⟩
    (format_ok200_length m (by omega)) (by rw [List.length_take]; omega) (by omega) rfl
  rw [List.take_take, Nat.min_self] at h1
  have c1 : (0 : Int) ≤ (m : Int) := by omega
  have c2 : (m : Int) ≤ 1024 := by omega
  have c3 : (m : Int) ≤ (w.length : Int) := by omega
  simp only [handle_read, bind_apply, pthread_mutex_lock, Mutex.held, Bool.false_eq_true,
    if_false, Mutex.set, get_state, c1, c2, c3, and_self, if_true, defined, exec_pure_apply,
    pthread_mutex_unlock, Int.toNat_ofNat, h1]

/-! ### The write handler -/

/-- The iteration of the loop of `handle_write` on a line that `sscanf` converts. -/
theorem scan_content_length_conv (fuel : Nat) (d cl z : List Nat) (x length : Int) (sp : Nat)
    (s : Server) (hcl : ∀ c ∈ cl, c ≠ 0)
    (hscan : sscanf_go (parse_format content_len_header) cl 0 [] [] = ⟨1, [x], []⟩) :
    scan_content_length (fuel + 1) (d ++ (cl ++ 0 :: z)) (some d.length) sp length s
      = Step.ok (x, d ++ (cl ++ 0 :: z)) s := by
  have hs := sscanf_token d cl z content_len_header hcl
  rw [List.append_assoc] at hs
  simp only [scan_content_length, bind_apply, hs, defined, exec_pure_apply, hscan]
  simp

theorem handle_write_parse_lines (fl cl : List Nat) (pre post : List (List Nat)) (x : Int)
    (rest : List Nat) (s : Server) (hfl : header_line fl) (hcl : header_line cl)
    (hscan : sscanf_go (parse_format content_len_header) cl 0 [] [] = ⟨1, [x], []⟩)
    (hpre : ∀ h ∈ pre, header_line h ∧ not_content_length h)
    (hpost : ∀ h ∈ post, header_line h) :
    handle_write (header_block (fl :: (pre ++ cl :: post)) ++ 13 :: 10 :: rest) s
      = handle_write_store x rest s := by
  have hall : ∀ h ∈ fl :: (pre ++ cl :: post), header_line h := by
    intro h hh
    rcases List.mem_cons.mp hh with rfl | hh
    · exact hfl
    · rcases List.mem_append.mp hh with hh | hh
      · exact (hpre h hh).1
      · rcases List.mem_cons.mp hh with rfl | hh
        · exact hcl
        · exact hpost h hh
  have F1 := strstr_block rest _ _ hall
  -- the first two tokens
  obtain ⟨h1, t1, e⟩ : ∃ h1 t1, pre ++ [cl] = h1 :: t1 := by
    cases pre with
    | nil => exact ⟨_, [], rfl⟩
    | cons a b => exact ⟨a, b ++ [cl], rfl⟩
  have hh1 : header_line h1 := by
    have hm : h1 ∈ pre ++ [cl] := by rw [e]; exact List.mem_cons_self _ _
    rcases List.mem_append.mp hm with hm | hm
    · exact (hpre h1 hm).1
    · rw [List.mem_singleton.mp hm]; exact hcl
  have eblock : header_block (pre ++ cl :: post)
      = h1 ++ 13 :: 10 :: (header_block t1 ++ header_block post) := by
    have : pre ++ cl :: post = (pre ++ [cl]) ++ post := by simp
    rw [this, header_block_append, e, header_block, List.append_assoc]
    rfl
  obtain ⟨y, hy⟩ : ∃ y, y = header_block post ++ 13 :: 10 :: rest := ⟨_, rfl⟩
  have F2 := strtok_r_line [] [] fl (h1 ++ 13 :: 10 :: (header_block t1 ++ y)) (by simp) hfl
  have F3 := strtok_r_line (fl ++ [0]) [10] h1 (header_block t1 ++ y) (by decide) hh1
  have hR : header_block (fl :: (pre ++ cl :: post)) ++ 13 :: 10 :: rest
      = fl ++ 13 :: 10 :: (h1 ++ 13 :: 10 :: (header_block t1 ++ y)) := by
    rw [header_block, eblock, hy]
    simp only [List.append_assoc, List.cons_append]
  have hP : (header_block (fl :: (pre ++ cl :: post))).length
      = fl.length + 2 + (h1.length + 2 + (header_block t1).length + (header_block post).length) := by
    rw [header_block, eblock]
    simp only [List.length_append, List.length_cons]
    omega
  rw [hR] at F1 ⊢
  simp only [List.nil_append, List.length_nil, Nat.zero_add] at F2
  simp only [List.append_assoc, List.cons_append, List.nil_append, List.length_append,
    List.length_singleton, List.length_nil, List.length_cons] at F3
  -- the loop
  have hlay : fl ++ 0 :: 10 :: (h1 ++ 0 :: 10 :: (header_block t1 ++ y))
      = (fl ++ [0, 10]) ++ token_layout (pre ++ [cl]) y := by
    rw [e, token_layout]
    simp only [List.append_assoc, List.cons_append, List.nil_append]
  have hfuel : pre.length ≤ (header_block t1).length := by
    have h := length_le_header_block t1
    have h2 : (pre ++ [cl]).length = (h1 :: t1).length := by rw [e]
    simp only [List.length_append, List.length_cons, List.length_nil] at h2
    omega
  obtain ⟨f, hf⟩ : ∃ f, (fl ++ 0 :: 10 :: (h1 ++ 0 :: 10 :: (header_block t1 ++ y))).length + 1
      = (f + 1) + pre.length := by
    refine ⟨(fl ++ 0 :: 10 :: (h1 ++ 0 :: 10 :: (header_block t1 ++ y))).length - pre.length, ?_⟩
    simp only [List.length_append, List.length_cons]
    omega
  have F4 := scan_content_length_chain cl y hcl pre (fl ++ [0, 10]) (f + 1) 0 s hpre
  rw [← hlay, e] at F4
  simp only [List.headD_cons, List.length_append, List.length_cons, List.length_nil] at F4
  have F5 := scan_content_length_conv f (fl ++ [0, 10] ++ tokenized pre) cl (10 :: y) x 0
    (fl.length + (0 + 1 + 1) + (tokenized pre).length + cl.length + 1) s
    (fun c hc => (hcl.2 c hc).1) hscan
  simp only [List.length_append, List.length_cons, List.length_nil] at F5
  simp only [List.append_assoc, List.cons_append, List.nil_append] at F4 F5
  simp only [Nat.zero_add, Nat.reduceAdd, Nat.add_assoc] at F3 F4 F5 hf
  have hlen2 : (tokenized pre).length + cl.length + 2
      = h1.length + 2 + (header_block t1).length := by
    have h := congrArg List.length (congrArg header_block e)
    rw [header_block_append] at h
    simp only [header_block, List.length_append, List.length_cons, List.length_nil] at h
    rw [tokenized_length]
    omega
  have F6 : (fl ++ 0 :: 10 :: (tokenized pre ++ (cl ++ 0 :: 10 :: y))).drop
      ((header_block (fl :: (pre ++ cl :: post))).length - 2 + 4) = rest := by
    have h : fl ++ 0 :: 10 :: (tokenized pre ++ (cl ++ 0 :: 10 :: y))
        = (fl ++ 0 :: 10 :: (tokenized pre ++ (cl ++ 0 :: 10 :: (header_block post ++ [13, 10]))))
          ++ rest := by
      rw [hy]
      simp only [List.append_assoc, List.cons_append, List.nil_append]
    rw [h]
    apply List.drop_left'
    simp only [List.length_append, List.length_cons, List.length_nil]
    omega
  unfold handle_write
  simp only [bind_apply, F1, defined, exec_pure_apply, F2, assert, Option.isSome_some, if_true,
    F3, hf, F4, F5, Option.map_some', F6]
  rfl

theorem handle_write_store_zero (src : List Nat) (s : Server) :
    handle_write_store 0 src s = Step.stop Stop.abort s := by
  simp [handle_write_store, assert]

theorem handle_write_store_neg (x : Int) (src : List Nat) (s : Server) (hx : x < 0)
    (hw : s.write_lock = false) :
    handle_write_store x src s
      = Step.stop Stop.undefined { s with written_size := x, write_lock := true } := by
  obtain ⟨w, ws, wl, r, hby, bby, e, eb, sl, sn, cl⟩ := s
  simp only at hw
  subst hw
  have h1 : x ≠ 0 := by omega
  have h2 : ¬ x > 1024 := by omega
  have h3 : ¬ (0 ≤ x) := by omega
  simp [handle_write_store, assert, h1, h2, h3, pthread_mutex_lock, Mutex.held, Mutex.set,
    modify_state, get_state, defined, halt]

theorem handle_write_store_pos (n : Nat) (src : List Nat) (s : Server) (hn : 0 < n)
    (hsrc : min n 1024 ≤ src.length) (hcap : s.written.length = 1024)
    (hw : s.write_lock = false) (hlock : s.stats_lock = false) :
    handle_write_store (n : Int) src s
      = Step.ok ()
          { s with
            written := src.take (min n 1024) ++ s.written.drop (min n 1024)
            written_size := ((min n 1024 : Nat) : Int)
            sent := s.sent ++ format ok200_response [((min n 1024 : Nat) : Int)]
              ++ src.take (min n 1024)
            reqs := wrap_int (s.reqs + 1)
            head_bytes := wrap_int (s.head_bytes
              + (format ok200_response [((min n 1024 : Nat) : Int)]).length)
            body_bytes := wrap_int (s.body_bytes + (min n 1024 : Nat))
            write_lock := false
            stats_lock := false } := by
  obtain ⟨w, ws, wl, r, hby, bby, e, eb, sl, sn, cl⟩ := s
  simp only at hw hlock hcap
  subst hw hlock
  have h1 : (n : Int) ≠ 0 := by omega
  have hm : (if (n : Int) > 1024 then (1024 : Int) else (n : Int)) = ((min n 1024 : Nat) : Int) := by
    split <;> omega
  have hm1024 : min n 1024 ≤ 1024 := Nat.min_le_right _ _
  have c1 : (0 : Int) ≤ ((min n 1024 : Nat) : Int) := by omega
  have c2 : ((min n 1024 : Nat) : Int) ≤ (src.length : Int) := by omega
  have c3 : ((min n 1024 : Nat) : Int) ≤ (w.length : Int) := by omega
  have hr := handle_read_ok
    ⟨src.take (min n 1024) ++ w.drop (min n 1024), ((min n 1024 : Nat) : Int), false, r, hby,
      bby, e, eb, false, sn, cl⟩ (min n 1024) rfl hm1024
    (by simp only [List.length_append, List.length_take, List.length_drop]; omega) rfl rfl
  simp only [List.take_left' (List.length_take_of_le hsrc)] at hr
  simp only [handle_write_store, bind_apply, assert, h1, hm, ne_eq, not_false_eq_true,
    decide_True, if_true, pthread_mutex_lock, Mutex.held, Bool.false_eq_true, if_false,
    Mutex.set, modify_state, get_state, c1, c2, c3, and_self, defined, exec_pure_apply,
    pthread_mutex_unlock, Int.toNat_ofNat, hr]

theorem handle_client_request_write (fs : List Nat → Option (List Nat)) (len : Int)
    (request : List Nat) (s : Server) (hlen : 0 < len) (hbuf : 22 ≤ request.length)
    (hreq : write_request <+: request) :
    handle_client_request fs len request s
      = (do handle_write request; close_client : Exec Unit) s := by
  have h0 : len ≠ 0 := by omega
  have n1 : ¬ ping_request <+: request := by
    obtain ⟨t, rfl⟩ := hreq
    rintro ⟨u, hu⟩
    simp [write_request, ping_request, bytes] at hu
  have n2 : ¬ echo_request <+: request := by
    obtain ⟨t, rfl⟩ := hreq
    rintro ⟨u, hu⟩
    simp [write_request, echo_request, bytes] at hu
  obtain ⟨c1, e1, m1⟩ := strncmp_ne ping_request (by decide) request
    (le_trans (by decide) hbuf) n1
  obtain ⟨c2, e2, m2⟩ := strncmp_ne echo_request (by decide) request
    (le_trans (by decide) hbuf) n2
  have e3 := strncmp_eq write_request (by decide) request hreq
  simp [handle_client_request, h0, hlen, assert, defined, e1, m1, e2, m2, e3]

theorem handle_client_request_read (fs : List Nat → Option (List Nat)) (len : Int)
    (request : List Nat) (s : Server) (hlen : 0 < len) (hbuf : 22 ≤ request.length)
    (hreq : read_request <+: request) :
    handle_client_request fs len request s
      = (do handle_read; close_client : Exec Unit) s := by
  have h0 : len ≠ 0 := by omega
  have n1 : ¬ ping_request <+: request := by
    obtain ⟨t, rfl⟩ := hreq
    rintro ⟨u, hu⟩
    simp [read_request, ping_request, bytes] at hu
  have n2 : ¬ echo_request <+: request := by
    obtain ⟨t, rfl⟩ := hreq
    rintro ⟨u, hu⟩
    simp [read_request, echo_request, bytes] at hu
  have n3 : ¬ write_request <+: request := by
    obtain ⟨t, rfl⟩ := hreq
    rintro ⟨u, hu⟩
    simp [read_request, write_request, bytes] at hu
  obtain ⟨c1, e1, m1⟩ := strncmp_ne ping_request (by decide) request
    (le_trans (by decide) hbuf) n1
  obtain ⟨c2, e2, m2⟩ := strncmp_ne echo_request (by decide) request
    (le_trans (by decide) hbuf) n2
  obtain ⟨c3, e3, m3⟩ := strncmp_ne write_request (by decide) request
    (le_trans (by decide) hbuf) n3
  have e4 := strncmp_eq read_request (by decide) request hreq
  simp [handle_client_request, h0, hlen, assert, defined, e1, m1, e2, m2, e3, m3, e4]

/-- A `POST /write` request as a block of lines. -/
theorem write_request_block (pre post : List (List Nat)) (cl rest : List Nat) :
    write_request ++ header_block pre ++ cl ++ crlf ++ header_block post ++ crlf ++ rest
      = header_block (bytes "POST /write HTTP/1.1" :: (pre ++ cl :: post))
          ++ 13 :: 10 :: rest := by
  have e1 : write_request = bytes "POST /write HTTP/1.1" ++ [13, 10] := by decide
  have e2 : crlf = [13, 10] := by decide
  rw [e1, e2]
  simp [header_block, header_block_append]

/-- The write/read round trip where the handler completes: the byte sequence `v`
is not empty and its length is at most `INT_MAX`.  For every such `v`, every
`POST /write` request in the 2048 bytes of `request` made of the request line,
header lines that `sscanf` does not take for the header, the line
`Content-Length: <|v|>`, further header lines, the empty line and then the first
`min(|v|, 1024)` bytes of `v` (followed by anything), handled from a state with
both locks free: `handle_write` stores exactly the first `min(|v|, 1024)` bytes of
`v`, with that count as `written_size`, and answers with them; a `GET /read`
request handled next is answered with
`HTTP/1.1 200 OK\r\nContent-Length: <min(|v|, 1024)>\r\n\r\n` followed by exactly
those bytes. -/
theorem write_read_round_trip (fs : List Nat → Option (List Nat)) (len len2 : Int)
    (v rest rest2 : List Nat) (pre post : List (List Nat)) (s : Server) (hv : v ≠ [])
    (hvl : v.length ≤ 2147483647)
    (hpre : ∀ h ∈ pre, header_line h ∧ not_content_length h)
    (hpost : ∀ h ∈ post, header_line h) (hbody : v.take 1024 <+: rest)
    (hbuf : (write_request ++ header_block pre ++ content_length_line (v.length : Int) ++ crlf
      ++ header_block post ++ crlf ++ rest).length = 2048)
    (hbuf2 : (read_request ++ rest2).length = 2048) (hlen : 0 < len) (hlen2 : 0 < len2)
    (hcap : s.written.length = 1024) (hw : s.write_lock = false)
    (hlock : s.stats_lock = false) :
    ∃ s1 s2 : Server,
      handle_client_request fs len
        (write_request ++ header_block pre ++ content_length_line (v.length : Int) ++ crlf
          ++ header_block post ++ crlf ++ rest) s = Step.ok () s1 ∧
      s1.written_size = ((min v.length 1024 : Nat) : Int) ∧
      s1.written.take (min v.length 1024) = v.take 1024 ∧
      s1.sent = s.sent ++ bytes "HTTP/1.1 200 OK\r\nContent-Length: "
        ++ dec ((min v.length 1024 : Nat) : Int) ++ bytes "\r\n\r\n" ++ v.take 1024 ∧
      serve fs len2 (read_request ++ rest2) s1 = Step.ok () s2 ∧
      s2.sent = bytes "HTTP/1.1 200 OK\r\nContent-Length: "
        ++ dec ((min v.length 1024 : Nat) : Int) ++ bytes "\r\n\r\n" ++ v.take 1024 := by
  have hn : 0 < v.length := List.length_pos.mpr hv
  have htl : (v.take 1024).length = min v.length 1024 := by
    rw [List.length_take, Nat.min_comm]
  have hsrc : min v.length 1024 ≤ rest.length := by
    rw [← htl]; exact hbody.length_le
  have htake : rest.take (min v.length 1024) = v.take 1024 := by
    have := List.prefix_iff_eq_take.mp hbody
    rw [htl] at this
    exact this.symm
  have hd := handle_client_request_write fs len
    (write_request ++ header_block pre ++ content_length_line (v.length : Int) ++ crlf
      ++ header_block post ++ crlf ++ rest) s hlen (by omega)
    ⟨header_block pre ++ content_length_line (v.length : Int) ++ crlf ++ header_block post
      ++ crlf ++ rest, by simp only [List.append_assoc]⟩
  rw [write_request_block] at hd ⊢
  have hp := handle_write_parse_lines (bytes "POST /write HTTP/1.1")
    (content_length_line (v.length : Int)) pre post (v.length : Int) rest s
    ⟨by decide, by decide⟩ (header_line_content_length _)
    (by rw [sscanf_go_content_length, store_int_of_range _ (by omega) (by omega)])
    hpre hpost
  have hs := handle_write_store_pos v.length rest s hn hsrc hcap hw hlock
  rw [htake] at hs
  have hm1024 : min v.length 1024 ≤ 1024 := Nat.min_le_right _ _
  obtain ⟨w, ws, wl, r, hby, bby, e, eb, sl, sn, cl⟩ := s
  simp only at hw hlock hcap hs hp hd
  subst hw hlock
  have hr := handle_read_ok
    ⟨v.take 1024 ++ w.drop (min v.length 1024), ((min v.length 1024 : Nat) : Int), false,
      wrap_int (r + 1),
      wrap_int (hby + (format ok200_response [((min v.length 1024 : Nat) : Int)]).length),
      wrap_int (bby + (min v.length 1024 : Nat)), e, eb, false, [], false⟩
    (min v.length 1024) rfl hm1024
    (by simp only [List.length_append, List.length_take, List.length_drop]; omega) rfl rfl
  have hd2 := handle_client_request_read fs len2 (read_request ++ rest2)
    ⟨v.take 1024 ++ w.drop (min v.length 1024), ((min v.length 1024 : Nat) : Int), false,
      wrap_int (r + 1),
      wrap_int (hby + (format ok200_response [((min v.length 1024 : Nat) : Int)]).length),
      wrap_int (bby + (min v.length 1024 : Nat)), e, eb, false, [], false⟩ hlen2 (by omega)
    ⟨rest2, rfl⟩
  simp only [List.take_left' htl] at hr
  have H1 : handle_client_request fs len
      (header_block (bytes "POST /write HTTP/1.1" :: (pre ++ content_length_line (v.length : Int)
        :: post)) ++ 13 :: 10 :: rest)
      ⟨w, ws, false, r, hby, bby, e, eb, false, sn, cl⟩
      = Step.ok ()
        ⟨v.take 1024 ++ w.drop (min v.length 1024), ((min v.length 1024 : Nat) : Int), false,
          wrap_int (r + 1),
          wrap_int (hby + (format ok200_response [((min v.length 1024 : Nat) : Int)]).length),
          wrap_int (bby + (min v.length 1024 : Nat)), e, eb, false,
          sn ++ format ok200_response [((min v.length 1024 : Nat) : Int)] ++ v.take 1024,
          true⟩ := by
    rw [hd]
    simp only [bind_apply, hp, hs, close_client, modify_state]
  have H2 : serve fs len2 (read_request ++ rest2)
      ⟨v.take 1024 ++ w.drop (min v.length 1024), ((min v.length 1024 : Nat) : Int), false,
          wrap_int (r + 1),
          wrap_int (hby + (format ok200_response [((min v.length 1024 : Nat) : Int)]).length),
          wrap_int (bby + (min v.length 1024 : Nat)), e, eb, false,
          sn ++ format ok200_response [((min v.length 1024 : Nat) : Int)] ++ v.take 1024,
          true⟩
      = Step.ok ()
        ⟨v.take 1024 ++ w.drop (min v.length 1024), ((min v.length 1024 : Nat) : Int), false,
          wrap_int (wrap_int (r + 1) + 1),
          wrap_int
            (wrap_int (hby + (format ok200_response [((min v.length 1024 : Nat) : Int)]).length)
              + (format ok200_response [((min v.length 1024 : Nat) : Int)]).length),
          wrap_int (wrap_int (bby + (min v.length 1024 : Nat)) + (min v.length 1024 : Nat)),
          e, eb, false,
          [] ++ format ok200_response [((min v.length 1024 : Nat) : Int)] ++ v.take 1024,
          true⟩ := by
    simp only [serve]
    rw [hd2]
    simp only [bind_apply, hr, close_client, modify_state]
  refine ⟨_, _, H1, rfl, List.take_left' htl, ?_, H2, ?_⟩
  · simp only [format_ok200, List.append_assoc]
  · simp only [format_ok200, List.append_assoc, List.nil_append]

theorem write_read_round_trip_witness :
    ∃ s1 s2 : Server,
      handle_client_request (fun _ => none) 68
        (write_request ++ header_block [bytes "Host: a"]
          ++ content_length_line ((bytes "hello").length : Int) ++ crlf
          ++ header_block [bytes "Accept: b"] ++ crlf
          ++ (bytes "hello" ++ List.replicate 1980 0)) Server.init = Step.ok () s1 ∧
      s1.written_size = ((min (bytes "hello").length 1024 : Nat) : Int) ∧
      s1.written.take (min (bytes "hello").length 1024) = (bytes "hello").take 1024 ∧
      s1.sent = Server.init.sent ++ bytes "HTTP/1.1 200 OK\r\nContent-Length: "
        ++ dec ((min (bytes "hello").length 1024 : Nat) : Int) ++ bytes "\r\n\r\n"
        ++ (bytes "hello").take 1024 ∧
      serve (fun _ => none) 22 (read_request ++ (crlf ++ List.replicate 2026 0)) s1
        = Step.ok () s2 ∧
      s2.sent = bytes "HTTP/1.1 200 OK\r\nContent-Length: "
        ++ dec ((min (bytes "hello").length 1024 : Nat) : Int) ++ bytes "\r\n\r\n"
        ++ (bytes "hello").take 1024 :=
  write_read_round_trip (fun _ => none) 68 22 (bytes "hello")
    (bytes "hello" ++ List.replicate 1980 0) (crlf ++ List.replicate 2026 0)
    [bytes "Host: a"] [bytes "Accept: b"] Server.init (by decide) (by decide)
    (by
      intro h hh
      rw [List.mem_singleton] at hh
      subst hh
      exact ⟨⟨by decide, by decide⟩, by unfold not_content_length; decide⟩)
    (by
      intro h hh
      rw [List.mem_singleton] at hh
      subst hh
      exact ⟨by decide, by decide⟩)
    (by rw [List.take_of_length_le (by decide)]; exact List.prefix_append _ _)
    (by simp only [List.length_append, List.length_replicate]; decide)
    (by simp only [List.length_append, List.length_replicate]; decide)
    (by decide) (by decide)
    (by
      show (bytes "<empty>" ++ List.replicate 1017 0).length = 1024
      rw [List.length_append, List.length_replicate]; decide)
    rfl rfl

/-- C1 (write/read round trip), the code fails the claim at the empty byte
sequence `v`: the request `POST /write HTTP/1.1`, `Content-Length: 0`, the empty
line and no body (in the 2048 bytes of `request`, the rest zero) is well formed
and its header states the length of `v`.  `sscanf` converts the header and
stores 0 in `length`, where `length` already was 0, and
`assert(length != 0)  // asserting found the header` fails although the header
was found: the process is aborted, nothing is stored or sent, and no read
follows, where the claim has the empty body returned with `Content-Length: 0`. -/
theorem write_empty_aborts :
    handle_client_request (fun _ => none) 43
        (bytes "POST /write HTTP/1.1\r\nContent-Length: 0\r\n\r\n" ++ List.replicate 2005 0)
        Server.init
      = Step.stop Stop.abort Server.init := by
  have htext : bytes "POST /write HTTP/1.1\r\nContent-Length: 0\r\n\r\n" ++ List.replicate 2005 0
      = write_request ++ header_block [] ++ content_length_line 0 ++ crlf ++ header_block []
          ++ crlf ++ List.replicate 2005 0 := by
    rfl
  have hd := handle_client_request_write (fun _ => none) 43
    (write_request ++ header_block [] ++ content_length_line 0
      ++ crlf ++ header_block [] ++ crlf ++ List.replicate 2005 0) Server.init (by decide)
    (by simp only [List.length_append, List.length_replicate]; decide)
    ⟨header_block [] ++ content_length_line 0
      ++ crlf ++ header_block [] ++ crlf ++ List.replicate 2005 0,
     by simp only [List.append_assoc]⟩
  rw [htext]
  rw [write_request_block] at hd ⊢
  have hp := handle_write_parse_lines (bytes "POST /write HTTP/1.1")
    (content_length_line 0) [] [] 0 (List.replicate 2005 0) Server.init
    ⟨by decide, by decide⟩ (header_line_content_length _)
    (by rw [sscanf_go_content_length]; rfl)
    (by simp) (by simp)
  rw [hd]
  simp only [bind_apply, hp]
  simp only [handle_write_store_zero]

/-- C10 (stored-buffer bound), evaluated at the failing input
`POST /write HTTP/1.1\r\nContent-Length: -5\r\n\r\n`: the value -5 passes
`assert(length != 0)` and `if (length > 1024)`, `written_size` becomes -5, outside
0..1024, under `write_lock`, and the `memcpy` of `(size_t)-5` bytes that follows is
undefined: nothing is sent and the lock is never released. -/
theorem write_negative_length :
    handle_client_request (fun _ => none) 44
        (write_request ++ header_block [] ++ content_length_line (-5) ++ crlf
          ++ header_block [] ++ crlf ++ List.replicate 2004 0) Server.init
      = Step.stop Stop.undefined { Server.init with written_size := -5, write_lock := true } := by
  have hd := handle_client_request_write (fun _ => none) 44
    (write_request ++ header_block [] ++ content_length_line (-5) ++ crlf
      ++ header_block [] ++ crlf ++ List.replicate 2004 0) Server.init (by decide)
    (by simp only [List.length_append, List.length_replicate]; decide)
    ⟨header_block [] ++ content_length_line (-5) ++ crlf ++ header_block [] ++ crlf
      ++ List.replicate 2004 0, by simp only [List.append_assoc]⟩
  rw [write_request_block] at hd ⊢
  have hp := handle_write_parse_lines (bytes "POST /write HTTP/1.1")
    (content_length_line (-5)) [] [] (-5) (List.replicate 2004 0) Server.init
    ⟨by decide, by decide⟩ (header_line_content_length _)
    (by rw [sscanf_go_content_length]; rfl)
    (by simp) (by simp)
  rw [hd]
  simp only [bind_apply, hp,
    handle_write_store_neg (-5) (List.replicate 2004 0) Server.init (by decide) rfl]

theorem write_negative_request_text :
    write_request ++ header_block [] ++ content_length_line (-5) ++ crlf ++ header_block []
      ++ crlf = bytes "POST /write HTTP/1.1\r\nContent-Length: -5\r\n\r\n" := by
  decide

/-- C9 (counters-lock discipline), evaluated at the failing input
`GET /f HTTP/1.1\r\n\r\n` where the file `f` holds `abc`: the response is sent in
full and the request counter is increased by 1, but `handle_file` then calls
`pthread_mutex_lock(&stats_lock)` a second time where the release belongs: the
handler waits for the lock it holds, never returns, never closes the socket, and
the counters lock stays held. -/
theorem file_handler_double_lock :
    handle_client_request (fun p => if p = bytes "f" then some (bytes "abc") else none) 19
        (bytes "GET /f HTTP/1.1\r\n\r\n" ++ List.replicate 2029 0) Server.init
      = Step.stop Stop.deadlock
          { Server.init with
            sent := bytes "HTTP/1.1 200 OK\r\nContent-Length: 3\r\n\r\nabc"
            reqs := 1
            head_bytes := 38
            body_bytes := 3
            stats_lock := true
            closed := false } := by
  have hreq : bytes "GET /f HTTP/1.1\r\n\r\n" ++ List.replicate 2029 0
      = bytes "GET /" ++ bytes "f" ++ bytes " HTTP/1.1\r\n" ++ (crlf ++ List.replicate 2029 0) := by
    rfl
  have hd := handle_client_request_file
    (fun p => if p = bytes "f" then some (bytes "abc") else none) 19
    (bytes "GET /f HTTP/1.1\r\n\r\n" ++ List.replicate 2029 0) Server.init (by decide)
    (by simp only [List.length_append, List.length_replicate]; decide)
    (by decide) (by decide) (by decide) (by decide) (by decide) (by decide)
  have hf := handle_file_deadlock
    (fun p => if p = bytes "f" then some (bytes "abc") else none) (bytes "f")
    (crlf ++ List.replicate 2029 0) (bytes "abc") Server.init (by decide) (by decide)
    (by decide) (List.mem_append_right _ (List.mem_replicate.mpr ⟨by decide, rfl⟩))
    (by simp) (by decide) rfl (by decide)
  rw [hd, hreq, hf]
  have e1 : format ok200_response [((bytes "abc").length : Int)]
      = bytes "HTTP/1.1 200 OK\r\nContent-Length: 3\r\n\r\n" := by decide
  rw [e1]
  rfl

/-- The iteration of the loop of `handle_write` on the last line of a request
without body, when the line is not taken for the header: no token is left. -/
theorem scan_content_length_last (fuel : Nat) (d h tail : List Nat) (length : Int) (s : Server)
    (hh : header_line h) (hnc : not_content_length h) :
    scan_content_length (fuel + 2) (d ++ (h ++ 0 :: 10 :: 13 :: 10 :: 0 :: tail))
        (some d.length) (d.length + (h.length + 1)) length s
      = Step.ok (length, d ++ (h ++ 0 :: 10 :: 13 :: 10 :: 0 :: tail)) s := by
  have h0 : ∀ c ∈ h, c ≠ 0 := fun c hc => (hh.2 c hc).1
  have hs := sscanf_token d h (10 :: 13 :: 10 :: 0 :: tail) content_len_header h0
  rw [List.append_assoc] at hs
  obtain ⟨_, hints⟩ := sscanf_go_ret_zero _ _ _ _ _ hnc
  have ht := strtok_r_end (d ++ h ++ [0]) [10, 13, 10] tail (by decide)
  simp only [List.append_assoc, List.cons_append, List.nil_append, List.length_append,
    List.length_cons, List.length_nil, Nat.zero_add] at ht
  unfold not_content_length at hnc
  simp only [scan_content_length, bind_apply, hs, defined, exec_pure_apply, hints, hnc, ht,
    ne_eq, not_true_eq_false, if_false]

theorem handle_write_no_header (fl : List Nat) (hs : List (List Nat)) (tail : List Nat)
    (s : Server) (hfl : header_line fl)
    (hhs : ∀ h ∈ hs, header_line h ∧ not_content_length h) :
    handle_write (header_block (fl :: hs) ++ 13 :: 10 :: 0 :: tail) s
      = Step.stop Stop.abort s := by
  have hall : ∀ h ∈ fl :: hs, header_line h := by
    intro h hh
    rcases List.mem_cons.mp hh with rfl | hh
    · exact hfl
    · exact (hhs h hh).1
  have F1 := strstr_block (0 :: tail) _ _ hall
  rcases List.eq_nil_or_concat hs with rfl | ⟨ls, last, hcat⟩
  · -- no header line at all
    have F2 := strtok_r_line [] [] fl (13 :: 10 :: 0 :: tail) (by simp) hfl
    have F3 := strtok_r_end (fl ++ [0]) [10, 13, 10] tail (by decide)
    simp only [List.nil_append, List.length_nil, Nat.zero_add] at F2
    simp only [List.append_assoc, List.cons_append, List.nil_append, List.length_append,
      List.length_cons, List.length_nil, Nat.zero_add] at F3
    simp only [header_block, List.append_assoc, List.cons_append, List.nil_append] at F1 ⊢
    unfold handle_write
    simp only [bind_apply, F1, defined, exec_pure_apply, F2, assert, Option.isSome_some,
      if_true, F3, scan_content_length]
    simp
  · rw [List.concat_eq_append] at hcat
    subst hcat
    have hlast := hhs last (by simp)
    have hls : ∀ h ∈ ls, header_line h ∧ not_content_length h :=
      fun h hh => hhs h (by simp [hh])
    obtain ⟨h1, t1, e⟩ : ∃ h1 t1, ls ++ [last] = h1 :: t1 := by
      cases ls with
      | nil => exact ⟨_, [], rfl⟩
      | cons a b => exact ⟨a, b ++ [last], rfl⟩
    have hh1 : header_line h1 := by
      have hm : h1 ∈ ls ++ [last] := by rw [e]; exact List.mem_cons_self _ _
      exact (hhs h1 hm).1
    obtain ⟨y, hy⟩ : ∃ y, y = 13 :: 10 :: 0 :: tail := ⟨_, rfl⟩
    have F2 := strtok_r_line [] [] fl (h1 ++ 13 :: 10 :: (header_block t1 ++ y)) (by simp) hfl
    have F3 := strtok_r_line (fl ++ [0]) [10] h1 (header_block t1 ++ y) (by decide) hh1
    have hR : header_block (fl :: (ls ++ [last])) ++ 13 :: 10 :: 0 :: tail
        = fl ++ 13 :: 10 :: (h1 ++ 13 :: 10 :: (header_block t1 ++ y)) := by
      rw [e, header_block, header_block, hy]
      simp only [List.append_assoc, List.cons_append]
    rw [hR] at F1 ⊢
    simp only [List.nil_append, List.length_nil, Nat.zero_add] at F2
    simp only [List.append_assoc, List.cons_append, List.nil_append, List.length_append,
      List.length_singleton, List.length_nil, List.length_cons] at F3
    have hlay : fl ++ 0 :: 10 :: (h1 ++ 0 :: 10 :: (header_block t1 ++ y))
        = (fl ++ [0, 10]) ++ token_layout (ls ++ [last]) y := by
      rw [e, token_layout]
      simp only [List.append_assoc, List.cons_append, List.nil_append]
    have hfuel : ls.length ≤ (header_block t1).length := by
      have h := length_le_header_block t1
      have h2 : (ls ++ [last]).length = (h1 :: t1).length := by rw [e]
      simp only [List.length_append, List.length_cons, List.length_nil] at h2
      omega
    obtain ⟨f, hf⟩ : ∃ f,
        (fl ++ 0 :: 10 :: (h1 ++ 0 :: 10 :: (header_block t1 ++ y))).length + 1
          = (f + 2) + ls.length := by
      refine ⟨(fl ++ 0 :: 10 :: (h1 ++ 0 :: 10 :: (header_block t1 ++ y))).length - ls.length - 1,
        ?_⟩
      have hfl1 : 0 < fl.length := List.length_pos.mpr hfl.1
      simp only [List.length_append, List.length_cons]
      omega
    have F4 := scan_content_length_chain last y hlast.1 ls (fl ++ [0, 10]) (f + 2) 0 s hls
    rw [← hlay, e] at F4
    simp only [List.headD_cons, List.length_append, List.length_cons, List.length_nil] at F4
    have F5 := scan_content_length_last f (fl ++ [0, 10] ++ tokenized ls) last tail 0 s
      hlast.1 hlast.2
    simp only [List.length_append, List.length_cons, List.length_nil] at F5
    simp only [List.append_assoc, List.cons_append, List.nil_append] at F4 F5
    rw [← hy] at F5
    simp only [Nat.zero_add, Nat.reduceAdd, Nat.add_assoc] at F3 F4 F5 hf
    unfold handle_write
    simp only [bind_apply, F1, defined, exec_pure_apply, F2, assert, Option.isSome_some, if_true,
      F3, hf, F4, F5]
    simp

theorem write_request_lines (hs : List (List Nat)) (rest : List Nat) :
    write_request ++ header_block hs ++ crlf ++ rest
      = header_block (bytes "POST /write HTTP/1.1" :: hs) ++ 13 :: 10 :: rest := by
  have e1 : write_request = bytes "POST /write HTTP/1.1" ++ [13, 10] := by decide
  have e2 : crlf = [13, 10] := by decide
  rw [e1, e2]
  simp [header_block]

/-- A `POST /write` request without the header and without body is not answered.
For every `POST /write` request received (`len > 0`) in the 2048 bytes of
`request` whose header lines are all lines on which `sscanf` returns 0 and in
which a NUL follows the `\r\n\r\n`, `length` stays 0 and `assert(length != 0)`
fails: the process is aborted, no byte is sent, the socket is not closed by the
handler, and the stored buffer, its length and the counters are as before. -/
theorem write_without_content_length (fs : List Nat → Option (List Nat)) (len : Int)
    (hs : List (List Nat)) (tail : List Nat) (s : Server) (hlen : 0 < len)
    (hbuf : (write_request ++ header_block hs ++ crlf ++ 0 :: tail).length = 2048)
    (hhs : ∀ h ∈ hs, header_line h ∧ not_content_length h) :
    handle_client_request fs len (write_request ++ header_block hs ++ crlf ++ 0 :: tail) s
      = Step.stop Stop.abort s := by
  have hd := handle_client_request_write fs len
    (write_request ++ header_block hs ++ crlf ++ 0 :: tail) s hlen (by omega)
    ⟨header_block hs ++ crlf ++ 0 :: tail, by simp only [List.append_assoc]⟩
  rw [write_request_lines] at hd ⊢
  rw [hd]
  simp only [bind_apply,
    handle_write_no_header (bytes "POST /write HTTP/1.1") hs tail s ⟨by decide, by decide⟩ hhs]

theorem write_without_content_length_witness :
    handle_client_request (fun _ => none) 46
        (write_request ++ header_block [bytes "Host: a", bytes "Accept: b"] ++ crlf
          ++ 0 :: List.replicate 2003 0) Server.init
      = Step.stop Stop.abort Server.init :=
  write_without_content_length (fun _ => none) 46 [bytes "Host: a", bytes "Accept: b"]
    (List.replicate 2003 0) Server.init (by decide)
    (by simp only [List.length_append, List.length_cons, List.length_replicate]; decide)
    (by
      intro h hh
      simp only [List.mem_cons, List.mem_singleton, List.not_mem_nil, or_false] at hh
      rcases hh with rfl | rfl
      · exact ⟨⟨by decide, by decide⟩, by unfold not_content_length; decide⟩
      · exact ⟨⟨by decide, by decide⟩, by unfold not_content_length; decide⟩)

/-- C8 (malformed write), the code fails the claim at the request
`POST /write HTTP/1.1` followed by the empty line, with no header line at all (in
the 2048 bytes of `request`, the rest zero).  The loop of `handle_write` finds no
token, `length` stays 0 and `assert(length != 0)` fails: the process is aborted,
nothing is sent and the socket is not closed, where the claim has the response
`HTTP/1.1 400 Bad Request`, the socket closed and the worker back in its loop (as
`handle_client_request` does with `send_error(client, err400_response)` for a
request that matches no prefix). -/
theorem write_no_header_not_recovered :
    handle_client_request (fun _ => none) 24
        (bytes "POST /write HTTP/1.1\r\n\r\n" ++ List.replicate 2024 0) Server.init
      = Step.stop Stop.abort Server.init := by
  have hreq : bytes "POST /write HTTP/1.1\r\n\r\n" ++ List.replicate 2024 0
      = header_block (bytes "POST /write HTTP/1.1" :: []) ++ 13 :: 10 :: 0
          :: List.replicate 2023 0 := by
    rfl
  have hd := handle_client_request_write (fun _ => none) 24
    (bytes "POST /write HTTP/1.1\r\n\r\n" ++ List.replicate 2024 0) Server.init (by decide)
    (by simp only [List.length_append, List.length_replicate]; decide)
    ⟨crlf ++ List.replicate 2024 0, by rfl⟩
  rw [hd, hreq]
  simp only [bind_apply,
    handle_write_no_header (bytes "POST /write HTTP/1.1") [] (List.replicate 2023 0) Server.init
      ⟨by decide, by decide⟩ (by simp)]


end A5
